import Mathlib

/-!
# Verification of the payments-system prototype ledger (src/main.go)

Shallow embedding of the account ledger engine and IBAN codec from
`src/main.go`.  Monetary amounts (Go `float64`) are modelled as exact
rationals `ℚ`; `math.Round` (round half away from zero) is modelled
exactly.  The Go `map[string]*Account` together with the two special
account pointers is modelled as a record holding the emission account,
the destruction account and the list of ordinary entries; pointer
aliasing between the special pointers and their map entries is captured
by `Repo.mapFind` / `Repo.updateAt`, which route a map access for a
special account's IBAN to the corresponding record field (the Go map
literal in `NewInMemoryAccountRepository` lets the destruction entry
overwrite the emission entry when both constructor IBANs coincide,
hence `mapFind` tests the destruction IBAN first).  The `sync.Mutex` is
dropped: every repository operation is lock-protected end-to-end, so
operations are modelled as atomic state transformers.  Randomness
(`math/rand`) is modelled by passing the stream of random BBAN digit
strings as an explicit list argument.
-/

namespace Bank

/-- Go `math.Round` on the scaled value: round to nearest integer, ties
away from zero. -/
def roundAway (x : ℚ) : ℤ :=
  if 0 ≤ x then ⌊x + 1/2⌋ else -⌊-x + 1/2⌋

/-- `func round(amount float64) float64 { return math.Round(amount*100) / 100 }` -/
def round (amount : ℚ) : ℚ :=
  (roundAway (amount * 100) : ℚ) / 100

/-- `func roundAndExtractFractions(amount float64) (float64, float64)`:
returns the two-decimal rounding of `amount` together with the discarded
remainder `amount - rounded`. -/
def roundAndExtractFractions (amount : ℚ) : ℚ × ℚ :=
  (round amount, amount - round amount)

/-- `type AccountStatus int8` with constants `Active`, `Blocked`. -/
inductive AccountStatus where
  | Active
  | Blocked
deriving DecidableEq, Repr

/-- `type AccountType int8` with constants `Ordinary`, `MonetaryEmission`,
`MonetaryDestruction`. -/
inductive AccountType where
  | Ordinary
  | MonetaryEmission
  | MonetaryDestruction
deriving DecidableEq, Repr

/-- The Go error codes (`ErrorCode` constants in src/main.go).  The ledger
returns localized message strings built from these codes; only the code
(error kind) is modelled. -/
inductive ErrorCode where
  | AccountDoesNotExistError
  | AccountIsBlockedError
  | InsufficientAccountBalanceError
  | AccountTypeMismatchError
  | AccountIbanMismatchError
  | NegativeAmountError
  | InvalidIbanError
  | AccountCreationError
  | AccountDetailsJsonError
  | MoneyTransferJsonError
deriving DecidableEq, Repr

/-- `type Account struct { Iban string; Status AccountStatus; Type AccountType;
Balance float64; Fractions float64 }`.  The Go field `Type` is renamed `Typ`
because `Type` is reserved in Lean. -/
structure Account where
  Iban : String
  Status : AccountStatus
  Typ : AccountType
  Balance : ℚ
  Fractions : ℚ
deriving DecidableEq, Repr

/-- `func NewAccount(iban string, s AccountStatus, t AccountType, b float64) *Account` -/
def NewAccount (iban : String) (s : AccountStatus) (t : AccountType) (b : ℚ) : Account :=
  { Iban := iban, Status := s, Typ := t
    Balance := (roundAndExtractFractions b).1
    Fractions := (roundAndExtractFractions b).2 }

/-- `func (acc *Account) Block()` -/
def Account.Block (acc : Account) : Account :=
  { acc with Status := .Blocked }

/-- `func (acc *Account) Activate()` -/
def Account.Activate (acc : Account) : Account :=
  { acc with Status := .Active }

/-- `func (acc *Account) Deduct(amount float64)`: subtract the rounded
amount from `Balance` and the remainder from `Fractions`, then re-round
`Balance`. -/
def Account.Deduct (acc : Account) (amount : ℚ) : Account :=
  { acc with
    Balance := round (acc.Balance - (roundAndExtractFractions amount).1)
    Fractions := acc.Fractions - (roundAndExtractFractions amount).2 }

/-- `func (acc *Account) Add(amount float64)`: add the rounded amount to
`Balance` and the remainder to `Fractions`, then re-round `Balance`. -/
def Account.Add (acc : Account) (amount : ℚ) : Account :=
  { acc with
    Balance := round (acc.Balance + (roundAndExtractFractions amount).1)
    Fractions := acc.Fractions + (roundAndExtractFractions amount).2 }

/-- `strings.Replace(s, " ", "", -1)`: remove every space character. -/
def stripSpaces (s : String) : String :=
  ⟨s.data.filter (fun c => c ≠ ' ')⟩

/-- Numeric value of an upper-case letter: `int(char - 'A' + 10)`, in 10..35. -/
def letterVal (c : Char) : ℕ :=
  c.toNat - 'A'.toNat + 10

/-- Numeric value of a decimal digit character. -/
def digitVal (c : Char) : ℕ :=
  c.toNat - '0'.toNat

/-- `func ConvertIbanToNumericForm(iban string) (string, error)`: map each
letter `A..Z` to its two decimal digits (`strconv.Itoa` of 10..35, here the
digit pair `v/10, v%10`), pass digits through, and fail on any other
character.  The Go digit string is modelled as its list of digit values. -/
def ConvertIbanToNumericForm : List Char → Option (List ℕ)
  | [] => some []
  | c :: cs =>
    if 'A' ≤ c ∧ c ≤ 'Z' then
      (ConvertIbanToNumericForm cs).map
        (fun ds => letterVal c / 10 :: letterVal c % 10 :: ds)
    else if '0' ≤ c ∧ c ≤ '9' then
      (ConvertIbanToNumericForm cs).map (fun ds => digitVal c :: ds)
    else
      none

/-- `func Mod97(number string) int`: left fold with running remainder
`remainder = (remainder*10 + digit) % 97` over the digit string. -/
def Mod97 (ds : List ℕ) : ℕ :=
  ds.foldl (fun rem d => (rem * 10 + d) % 97) 0

/-- `func IsValidIban(iban string) bool`: strip spaces, require length 28,
convert to numeric form (failing closed on bad characters), and accept iff
the mod-97 remainder is 1.  (The Go line `iban = iban[:4] + iban[4:]` is the
identity and is omitted; Go's byte length equals the character count on all
inputs that survive the character-set check.) -/
def IsValidIban (iban : String) : Bool :=
  if (stripSpaces iban).data.length ≠ 28 then false
  else
    match ConvertIbanToNumericForm (stripSpaces iban).data with
    | none => false
    | some ds => Mod97 ds == 1

/-- `fmt.Sprintf("%02d", v)` for `v ≤ 99`: the two decimal digits of `v`. -/
def twoDigitString (v : ℕ) : String :=
  ⟨[Char.ofNat ('0'.toNat + v / 10), Char.ofNat ('0'.toNat + v % 10)]⟩

/-- `func CalculateIbanCheckDigits(ibanNumeric string) string`:
`98 - Mod97(ibanNumeric)`, zero-padded to two digits. -/
def CalculateIbanCheckDigits (ds : List ℕ) : String :=
  twoDigitString (98 - Mod97 ds)

/-- `func GenerateBelarusianIban() (string, error)` with the random BBAN
digit string passed explicitly: build `"BY" ++ "00" ++ bban`, compute check
digits from the numeric form of that whole placeholder candidate, and splice
them in.  Returns `none` when the numeric conversion fails (impossible for
digit-only BBANs). -/
def GenerateBelarusianIban (bban : String) : Option String :=
  let iban := "BY" ++ "00" ++ bban
  match ConvertIbanToNumericForm iban.data with
  | none => none
  | some ds => some ("BY" ++ CalculateIbanCheckDigits ds ++ bban)

/-- `func GenerateValidBelarusianIban() (string, error)`: retry
`GenerateBelarusianIban` until the candidate passes `IsValidIban`, giving up
(error) after the attempt ceiling (`errCount > 1000000`).  The random stream
is the explicit candidate-BBAN list; exhausting it is also modelled as
failure.  On success the unconsumed remainder of the stream is returned. -/
def GenerateValidBelarusianIban : ℕ → List String → Except Unit (String × List String)
  | _, [] => .error ()
  | 0, _ => .error ()
  | fuel + 1, bban :: rest =>
    match GenerateBelarusianIban bban with
    | none => GenerateValidBelarusianIban fuel rest
    | some iban =>
      if IsValidIban iban then .ok (iban, rest)
      else GenerateValidBelarusianIban fuel rest

/-- `type InMemoryAccountRepository struct { EmissionAccount *Account;
DestructionAccount *Account; Accounts map[string]*Account; Mutex sync.Mutex }`.

The Go map `Accounts` always consists of (at most) one entry per special
account — keyed by that account's IBAN and aliasing the corresponding
pointer field — plus one entry per ordinary account keyed by its IBAN.
The record stores the two special accounts and the list of ordinary map
entries; `Repo.mapFind`/`Repo.updateAt` below model map reads and pointer
writes against this decomposition.  The mutex is dropped (operations are
atomic). -/
structure InMemoryAccountRepository where
  EmissionAccount : Account
  DestructionAccount : Account
  OrdinaryAccounts : List (String × Account)
deriving DecidableEq, Repr

/-- First-match lookup in the ordinary-entry list (a Go map has at most one
entry per key; the list models it). -/
def lookupL : List (String × Account) → String → Option Account
  | [], _ => none
  | (k, a) :: t, i => if k = i then some a else lookupL t i

/-- Update the first entry with the given key, applying `f` to its account
(the model of mutating the `*Account` a map entry points to). -/
def updL : List (String × Account) → String → (Account → Account) → List (String × Account)
  | [], _, _ => []
  | (k, a) :: t, i, f => if k = i then (k, f a) :: t else (k, a) :: updL t i f

/-- `r.Accounts[iban]`: map lookup.  The destruction IBAN is tested first
because in the Go map literal of `NewInMemoryAccountRepository` the
destruction entry overwrites the emission entry when both IBANs coincide. -/
def InMemoryAccountRepository.mapFind (r : InMemoryAccountRepository) (iban : String) :
    Option Account :=
  if iban = r.DestructionAccount.Iban then some r.DestructionAccount
  else if iban = r.EmissionAccount.Iban then some r.EmissionAccount
  else lookupL r.OrdinaryAccounts iban

/-- Mutation through the pointer `r.Accounts[iban]`: apply `f` to the account
object the map entry for `iban` points to (routed to the aliased special
account field when `iban` is a special account's IBAN). -/
def InMemoryAccountRepository.updateAt (r : InMemoryAccountRepository) (iban : String)
    (f : Account → Account) : InMemoryAccountRepository :=
  if iban = r.DestructionAccount.Iban then { r with DestructionAccount := f r.DestructionAccount }
  else if iban = r.EmissionAccount.Iban then { r with EmissionAccount := f r.EmissionAccount }
  else { r with OrdinaryAccounts := updL r.OrdinaryAccounts iban f }

/-- All account objects of the repository: the emission account, the
destruction account, and every ordinary account. -/
def InMemoryAccountRepository.accountsList (r : InMemoryAccountRepository) : List Account :=
  r.EmissionAccount :: r.DestructionAccount :: r.OrdinaryAccounts.map Prod.snd

/-- `func NewInMemoryAccountRepository(eIban, dIban string) *InMemoryAccountRepository`:
strip spaces from both IBANs and create the two special accounts (Active,
zero balance). -/
def NewInMemoryAccountRepository (eIban dIban : String) : InMemoryAccountRepository :=
  { EmissionAccount := NewAccount (stripSpaces eIban) .Active .MonetaryEmission 0
    DestructionAccount := NewAccount (stripSpaces dIban) .Active .MonetaryDestruction 0
    OrdinaryAccounts := [] }

/-- `func (r *InMemoryAccountRepository) accountExists(iban string) bool`.
In our state decomposition the map always contains every special account's
IBAN, so the three Go tests collapse to a map-membership test. -/
def InMemoryAccountRepository.accountExists (r : InMemoryAccountRepository)
    (iban : String) : Bool :=
  (r.mapFind iban).isSome

/-- `func (r *InMemoryAccountRepository) RetrieveEmissionAccountIban() (string, error)`.
The `nil` pointer check is dropped (the model always has an emission
account); the defensive type check is kept. -/
def InMemoryAccountRepository.RetrieveEmissionAccountIban (r : InMemoryAccountRepository) :
    Except ErrorCode String × InMemoryAccountRepository :=
  if r.EmissionAccount.Typ ≠ .MonetaryEmission then (.error .AccountTypeMismatchError, r)
  else (.ok r.EmissionAccount.Iban, r)

/-- `func (r *InMemoryAccountRepository) RetrieveDestructionAccountIban() (string, error)`. -/
def InMemoryAccountRepository.RetrieveDestructionAccountIban (r : InMemoryAccountRepository) :
    Except ErrorCode String × InMemoryAccountRepository :=
  if r.DestructionAccount.Typ ≠ .MonetaryDestruction then (.error .AccountTypeMismatchError, r)
  else (.ok r.DestructionAccount.Iban, r)

/-- `func (r *InMemoryAccountRepository) EmitMoney(amount float64) error`:
check the emission account's type, that it is not blocked, that the amount
is not negative; then add the amount to the emission account. -/
def InMemoryAccountRepository.EmitMoney (r : InMemoryAccountRepository) (amount : ℚ) :
    Option ErrorCode × InMemoryAccountRepository :=
  if r.EmissionAccount.Typ ≠ .MonetaryEmission then (some .AccountTypeMismatchError, r)
  else if r.EmissionAccount.Status = .Blocked then (some .AccountIsBlockedError, r)
  else if amount < 0 then (some .NegativeAmountError, r)
  else (none, { r with EmissionAccount := r.EmissionAccount.Add amount })

/-- `func (r *InMemoryAccountRepository) DestructMoney(iban string, amount float64) error`:
after the destruction-account checks and the negative-amount check, fetch
the source account (existence check and map fetch are folded into one
`mapFind`, see `accountExists`), check its key consistency, status and
(rounded) balance sufficiency, then deduct from it and add to the
destruction account.  The write-back `r.Accounts[acc.Iban] = acc` is a
pointer-level no-op, modelled by `updateAt`; the subsequent
`r.DestructionAccount.Add(amount)` acts on the (possibly just-deducted)
destruction account field. -/
def InMemoryAccountRepository.DestructMoney (r : InMemoryAccountRepository)
    (iban : String) (amount : ℚ) : Option ErrorCode × InMemoryAccountRepository :=
  if r.DestructionAccount.Typ ≠ .MonetaryDestruction then (some .AccountTypeMismatchError, r)
  else if r.DestructionAccount.Status = .Blocked then (some .AccountIsBlockedError, r)
  else if amount < 0 then (some .NegativeAmountError, r)
  else
    match r.mapFind (stripSpaces iban) with
    | none => (some .AccountDoesNotExistError, r)
    | some acc =>
      if acc.Iban ≠ stripSpaces iban then (some .AccountIbanMismatchError, r)
      else if acc.Status = .Blocked then (some .AccountIsBlockedError, r)
      else if acc.Balance < (roundAndExtractFractions amount).1 then
        (some .InsufficientAccountBalanceError, r)
      else
        (none,
          { r.updateAt (stripSpaces iban) (fun a => a.Deduct amount) with
            DestructionAccount :=
              (r.updateAt (stripSpaces iban)
                (fun a => a.Deduct amount)).DestructionAccount.Add amount })

/-- `func (r *InMemoryAccountRepository) OpenAccount() (*Account, error)`, the
generation loop: repeat `GenerateValidBelarusianIban` until the candidate
does not collide with an existing account.  The Go loop is unbounded and
consumes at least one random BBAN per iteration; the model recurses on a
fuel bounded by the supplied random stream, reporting
`AccountCreationError` if generation fails or the modelled stream runs out. -/
def openAccountLoop (r : InMemoryAccountRepository) :
    ℕ → List String → Except ErrorCode String
  | 0, _ => .error .AccountCreationError
  | fuel + 1, cands =>
    match GenerateValidBelarusianIban 1000001 cands with
    | .error _ => .error .AccountCreationError
    | .ok (iban, rest) =>
      if r.accountExists iban then openAccountLoop r fuel rest
      else .ok iban

/-- `func (r *InMemoryAccountRepository) OpenAccount() (*Account, error)`:
generate a fresh valid unique IBAN and insert a new Ordinary/Active
zero-balance account under it. -/
def InMemoryAccountRepository.OpenAccount (r : InMemoryAccountRepository)
    (cands : List String) : Except ErrorCode Account × InMemoryAccountRepository :=
  match openAccountLoop r (cands.length + 1) cands with
  | .error e => (.error e, r)
  | .ok iban =>
    (.ok (NewAccount iban .Active .Ordinary 0),
      { r with OrdinaryAccounts :=
          r.OrdinaryAccounts ++ [(iban, NewAccount iban .Active .Ordinary 0)] })

/-- `func (r *InMemoryAccountRepository) TransferMoney(sender, recipient string, amount float64) error`:
strip spaces from both IBANs; check the sender exists (`!sExists || sAcc == nil`
folds to one `mapFind`), its key consistency, its status, the amount sign,
its (rounded) balance sufficiency; check the recipient exists, its key
consistency and status; then deduct from the sender and add to the
recipient.  The Go code reads the recipient pointer before the deduction
and mutates through pointers; sequential `updateAt`s reproduce the aliased
behavior when sender and recipient coincide. -/
def InMemoryAccountRepository.TransferMoney (r : InMemoryAccountRepository)
    (sender recipient : String) (amount : ℚ) :
    Option ErrorCode × InMemoryAccountRepository :=
  match r.mapFind (stripSpaces sender) with
  | none => (some .AccountDoesNotExistError, r)
  | some sAcc =>
    if sAcc.Iban ≠ stripSpaces sender then (some .AccountIbanMismatchError, r)
    else if sAcc.Status = .Blocked then (some .AccountIsBlockedError, r)
    else if amount < 0 then (some .NegativeAmountError, r)
    else if sAcc.Balance < (roundAndExtractFractions amount).1 then
      (some .InsufficientAccountBalanceError, r)
    else
      match r.mapFind (stripSpaces recipient) with
      | none => (some .AccountDoesNotExistError, r)
      | some rAcc =>
        if rAcc.Iban ≠ stripSpaces recipient then (some .AccountIbanMismatchError, r)
        else if rAcc.Status = .Blocked then (some .AccountIsBlockedError, r)
        else
          (none,
            (r.updateAt (stripSpaces sender) (fun a => a.Deduct amount)).updateAt
              (stripSpaces recipient) (fun a => a.Add amount))

/-- The decoded form of the transfer-request JSON envelope
`{sender, recipient, amount}`. -/
structure MoneyTransferReq where
  sender : String
  recipient : String
  amount : ℚ
deriving DecidableEq, Repr

/-- `func (r *InMemoryAccountRepository) TransferMoneyJson(jsonStr string) error`:
the JSON decoding boundary is modelled by passing the decode result
(`none` = `json.Unmarshal` error); on decode failure report
`MoneyTransferJsonError`, otherwise delegate to `TransferMoney`. -/
def InMemoryAccountRepository.TransferMoneyJson (r : InMemoryAccountRepository)
    (req : Option MoneyTransferReq) : Option ErrorCode × InMemoryAccountRepository :=
  match req with
  | none => (some .MoneyTransferJsonError, r)
  | some q => r.TransferMoney q.sender q.recipient q.amount

/-- One entry of the account-listing envelope `{iban, balance, fractions,
status}`; the status label is the English locale string. -/
structure AccountDetails where
  Iban : String
  Balance : ℚ
  Fractions : ℚ
  Status : String
deriving DecidableEq, Repr

/-- The locale-dependent status label (`accountStatusCodeToNameMap`,
English locale as set in `init`). -/
def statusName : AccountStatus → String
  | .Active => "Active"
  | .Blocked => "Blocked"

/-- `func (r *InMemoryAccountRepository) RetrieveAllAccountsAsJson() (string, error)`:
list the emission account, then the destruction account, then every
ordinary account (the Go pointer-inequality filter excludes exactly the two
special objects from the map iteration).  `json.Marshal` cannot fail on
these value types, so the `AccountDetailsJsonError` branch is unreachable
and the model always succeeds. -/
def InMemoryAccountRepository.RetrieveAllAccountsAsJson (r : InMemoryAccountRepository) :
    Except ErrorCode (List AccountDetails) × InMemoryAccountRepository :=
  let detail : Account → AccountDetails :=
    fun a => ⟨a.Iban, a.Balance, a.Fractions, statusName a.Status⟩
  (.ok (detail r.EmissionAccount :: detail r.DestructionAccount ::
    r.OrdinaryAccounts.map (fun p => detail p.2)), r)

/-- `func (r *InMemoryAccountRepository) BlockAccount(iban string) error`:
existence check, `nil` check and map fetch fold into one `mapFind`; check
key consistency; then block the account. -/
def InMemoryAccountRepository.BlockAccount (r : InMemoryAccountRepository)
    (iban : String) : Option ErrorCode × InMemoryAccountRepository :=
  match r.mapFind (stripSpaces iban) with
  | none => (some .AccountDoesNotExistError, r)
  | some acc =>
    if acc.Iban ≠ stripSpaces iban then (some .AccountIbanMismatchError, r)
    else (none, r.updateAt (stripSpaces iban) Account.Block)

/-- `func (r *InMemoryAccountRepository) ActivateAccount(iban string) error`. -/
def InMemoryAccountRepository.ActivateAccount (r : InMemoryAccountRepository)
    (iban : String) : Option ErrorCode × InMemoryAccountRepository :=
  match r.mapFind (stripSpaces iban) with
  | none => (some .AccountDoesNotExistError, r)
  | some acc =>
    if acc.Iban ≠ stripSpaces iban then (some .AccountIbanMismatchError, r)
    else (none, r.updateAt (stripSpaces iban) Account.Activate)

/-- The balance of the account the map associates with `iban`, taken as the
two-decimal `Balance` field together with the `Fractions` accumulator
(0 when no such account exists). -/
def InMemoryAccountRepository.balanceOf (r : InMemoryAccountRepository) (iban : String) : ℚ :=
  match r.mapFind iban with
  | some a => a.Balance + a.Fractions
  | none => 0

/-- `q` is an exact integer multiple of 0.01. -/
def IsCentM (q : ℚ) : Prop :=
  (100 * q).den = 1

instance (q : ℚ) : Decidable (IsCentM q) := by
  unfold IsCentM; infer_instance

/-- Every account's `Balance` field is an exact integer multiple of 0.01. -/
def InMemoryAccountRepository.CentInv (r : InMemoryAccountRepository) : Prop :=
  ∀ a ∈ r.accountsList, IsCentM a.Balance

instance (r : InMemoryAccountRepository) : Decidable r.CentInv :=
  List.decidableBAll _ _

/-- Every account's `Balance` field is nonnegative. -/
def InMemoryAccountRepository.NonNeg (r : InMemoryAccountRepository) : Prop :=
  ∀ a ∈ r.accountsList, 0 ≤ a.Balance

/-- Any two distinct accounts of the repository — the emission account, the
destruction account and the ordinary accounts — have distinct IBANs. -/
def InMemoryAccountRepository.IbanUnique (r : InMemoryAccountRepository) : Prop :=
  (r.accountsList.map Account.Iban).Nodup

instance (r : InMemoryAccountRepository) : Decidable r.IbanUnique := by
  unfold InMemoryAccountRepository.IbanUnique; infer_instance

/-- Every ordinary map entry is keyed by its account's IBAN (true of every
insertion the Go code performs). -/
def InMemoryAccountRepository.KeysMatch (r : InMemoryAccountRepository) : Prop :=
  ∀ p ∈ r.OrdinaryAccounts, (Prod.snd p).Iban = p.1

/-- Combined balance invariant carried through the reachability induction:
every account's `Balance` is a whole number of cents and nonnegative. -/
def InMemoryAccountRepository.AllOk (r : InMemoryAccountRepository) : Prop :=
  ∀ a ∈ r.accountsList, IsCentM a.Balance ∧ 0 ≤ a.Balance

/-- Combined identity invariant carried through the reachability induction:
ordinary map keys match their accounts' IBANs and all IBANs are pairwise
distinct. -/
def InMemoryAccountRepository.UOk (r : InMemoryAccountRepository) : Prop :=
  r.KeysMatch ∧ r.IbanUnique

/-- One state-mutating repository operation (the read-only operations
`RetrieveEmissionAccountIban`, `RetrieveDestructionAccountIban` and
`RetrieveAllAccountsAsJson` return the state unchanged and are omitted). -/
inductive Step : InMemoryAccountRepository → InMemoryAccountRepository → Prop where
  | emit (r : InMemoryAccountRepository) (amount : ℚ) :
      Step r (r.EmitMoney amount).2
  | destruct (r : InMemoryAccountRepository) (iban : String) (amount : ℚ) :
      Step r (r.DestructMoney iban amount).2
  | openAcc (r : InMemoryAccountRepository) (cands : List String) :
      Step r (r.OpenAccount cands).2
  | transfer (r : InMemoryAccountRepository) (sender recipient : String) (amount : ℚ) :
      Step r (r.TransferMoney sender recipient amount).2
  | transferJson (r : InMemoryAccountRepository) (req : Option MoneyTransferReq) :
      Step r (r.TransferMoneyJson req).2
  | block (r : InMemoryAccountRepository) (iban : String) :
      Step r (r.BlockAccount iban).2
  | activate (r : InMemoryAccountRepository) (iban : String) :
      Step r (r.ActivateAccount iban).2

/-- Reachability from an initial repository state by any sequence of
repository operations. -/
inductive Reaches (init : InMemoryAccountRepository) : InMemoryAccountRepository → Prop where
  | base : Reaches init init
  | step {r r' : InMemoryAccountRepository} : Reaches init r → Step r r' → Reaches init r'

/-- Character class `[A-Z0-9]` accepted by the IBAN numeric conversion. -/
def goodChar (c : Char) : Prop :=
  ('A' ≤ c ∧ c ≤ 'Z') ∨ ('0' ≤ c ∧ c ≤ '9')

instance (c : Char) : Decidable (goodChar c) := by
  unfold goodChar; infer_instance

/-- The decimal value of the numeric form of a character string, written
from the spec: each letter `A..Z` contributes its two-digit value 10..35,
each digit passes through unchanged. -/
def numericValue (s : List Char) : ℕ :=
  s.foldl (fun v c =>
    if 'A' ≤ c ∧ c ≤ 'Z' then v * 100 + letterVal c else v * 10 + digitVal c) 0

/-- The claim's characterization of `Validate`, written from the spec's
words: after removing spaces the identifier has exactly 28 characters, every
character is in `[A-Z0-9]`, and the decimal value of the numeric form
modulo 97 equals 1. -/
def IbanSpecValid (iban : String) : Prop :=
  (stripSpaces iban).data.length = 28 ∧
    (∀ c ∈ (stripSpaces iban).data, goodChar c) ∧
    numericValue (stripSpaces iban).data % 97 = 1

/-- Plain left fold assembling a decimal value from a digit list, used to
relate `Mod97` to the decimal value of the digit string. -/
def digitsVal (init : ℕ) (ds : List ℕ) : ℕ :=
  ds.foldl (fun v d => v * 10 + d) init

/-- A concrete ledger: `NewInMemoryAccountRepository("E", "D")` (the
constructor performs no IBAN validation). -/
def repoED : InMemoryAccountRepository :=
  NewInMemoryAccountRepository "E" "D"

/-- The ledger `repoED` after a successful `EmitMoney(100)`. -/
def repoED100 : InMemoryAccountRepository :=
  (repoED.EmitMoney 100).2

/-- The ledger `repoED` after a successful `BlockAccount("E")` (the emission
account is Blocked). -/
def repoEDBlocked : InMemoryAccountRepository :=
  (repoED.BlockAccount "E").2

-- The Batteries rational-arithmetic primitives are `@[irreducible]`, which
-- blocks kernel evaluation inside `decide`; restore default reducibility for
-- the concrete-state computations in the witnesses below.
attribute [local semireducible] Rat.mul Rat.add Rat.sub Rat.inv

/-! ## Arithmetic facts about the two-decimal rounding -/

theorem floor_half : ⌊(1 : ℚ)/2⌋ = 0 := by
  rw [Int.floor_eq_zero_iff]
  constructor <;> norm_num

theorem roundAway_intCast (j : ℤ) : roundAway (j : ℚ) = j := by
  unfold roundAway
  split_ifs with h
  · rw [Int.floor_int_add, floor_half, add_zero]
  · rw [show -(j : ℚ) = ((-j : ℤ) : ℚ) by push_cast; ring,
      Int.floor_int_add, floor_half, add_zero, neg_neg]

theorem roundAway_nonneg {x : ℚ} (h : 0 ≤ x) : 0 ≤ roundAway x := by
  unfold roundAway
  rw [if_pos h, Int.le_floor]
  push_cast
  linarith

theorem IsCentM_iff (q : ℚ) : IsCentM q ↔ ∃ k : ℤ, q = (k : ℚ) / 100 := by
  unfold IsCentM
  constructor
  · intro h
    refine ⟨(100 * q).num, ?_⟩
    have := Rat.coe_int_num_of_den_eq_one h
    rw [this]
    ring
  · rintro ⟨k, rfl⟩
    have : (100 : ℚ) * ((k : ℚ) / 100) = (k : ℚ) := by ring
    rw [this, Rat.den_intCast]

theorem round_centM (x : ℚ) : IsCentM (round x) := by
  rw [IsCentM_iff]
  exact ⟨roundAway (x * 100), rfl⟩

theorem round_eq_of_centM {q : ℚ} (h : IsCentM q) : round q = q := by
  rw [IsCentM_iff] at h
  obtain ⟨k, rfl⟩ := h
  unfold round
  rw [show (k : ℚ) / 100 * 100 = (k : ℚ) by ring, roundAway_intCast]

theorem round_nonneg {x : ℚ} (h : 0 ≤ x) : 0 ≤ round x := by
  unfold round
  have h1 : (0 : ℚ) ≤ x * 100 := by positivity
  have h2 := roundAway_nonneg h1
  have : (0 : ℚ) ≤ (roundAway (x * 100) : ℚ) := by exact_mod_cast h2
  positivity

theorem IsCentM.add {a b : ℚ} (ha : IsCentM a) (hb : IsCentM b) : IsCentM (a + b) := by
  rw [IsCentM_iff] at *
  obtain ⟨k, rfl⟩ := ha
  obtain ⟨l, rfl⟩ := hb
  exact ⟨k + l, by push_cast; ring⟩

theorem IsCentM.sub {a b : ℚ} (ha : IsCentM a) (hb : IsCentM b) : IsCentM (a - b) := by
  rw [IsCentM_iff] at *
  obtain ⟨k, rfl⟩ := ha
  obtain ⟨l, rfl⟩ := hb
  exact ⟨k - l, by push_cast; ring⟩

/-- On a whole-cent balance, deducting re-rounds exactly: the new balance is
the old one minus the rounded amount. -/
theorem Deduct_Balance_of_centM {acc : Account} (h : IsCentM acc.Balance) (amount : ℚ) :
    (acc.Deduct amount).Balance = acc.Balance - round amount := by
  unfold Account.Deduct roundAndExtractFractions
  exact round_eq_of_centM (h.sub (round_centM amount))

/-- On a whole-cent balance, adding re-rounds exactly. -/
theorem Add_Balance_of_centM {acc : Account} (h : IsCentM acc.Balance) (amount : ℚ) :
    (acc.Add amount).Balance = acc.Balance + round amount := by
  unfold Account.Add roundAndExtractFractions
  exact round_eq_of_centM (h.add (round_centM amount))

theorem Deduct_Fractions (acc : Account) (amount : ℚ) :
    (acc.Deduct amount).Fractions = acc.Fractions - (amount - round amount) := rfl

theorem Add_Fractions (acc : Account) (amount : ℚ) :
    (acc.Add amount).Fractions = acc.Fractions + (amount - round amount) := rfl

theorem Deduct_Iban (acc : Account) (amount : ℚ) : (acc.Deduct amount).Iban = acc.Iban := rfl

theorem Add_Iban (acc : Account) (amount : ℚ) : (acc.Add amount).Iban = acc.Iban := rfl

/-! ## Map-view lemmas for `mapFind` / `updateAt` -/

theorem lookupL_mem {l : List (String × Account)} {i : String} {a : Account}
    (h : lookupL l i = some a) : a ∈ l.map Prod.snd := by
  induction l with
  | nil => simp [lookupL] at h
  | cons p t ih =>
    by_cases hk : p.1 = i
    · rw [show p = (p.1, p.2) from rfl, lookupL, if_pos hk] at h
      simp only [Option.some.injEq] at h
      simp [← h]
    · rw [show p = (p.1, p.2) from rfl, lookupL, if_neg hk] at h
      simp [ih h]

theorem lookupL_eq_none_iff {l : List (String × Account)} {i : String} :
    lookupL l i = none ↔ ∀ p ∈ l, p.1 ≠ i := by
  induction l with
  | nil => simp [lookupL]
  | cons p t ih =>
    rw [show p = (p.1, p.2) from rfl, lookupL]
    by_cases hk : p.1 = i
    · simp [hk]
    · simp [hk, ih]

theorem lookupL_updL_self (l : List (String × Account)) (i : String) (f : Account → Account) :
    lookupL (updL l i f) i = (lookupL l i).map f := by
  induction l with
  | nil => simp [lookupL, updL]
  | cons p t ih =>
    rw [show p = (p.1, p.2) from rfl, updL]
    by_cases hk : p.1 = i
    · rw [if_pos hk, lookupL, if_pos hk, lookupL, if_pos hk, Option.map_some']
    · rw [if_neg hk, lookupL, if_neg hk, lookupL, if_neg hk, ih]

theorem lookupL_updL_ne (l : List (String × Account)) {i j : String} (f : Account → Account)
    (h : j ≠ i) : lookupL (updL l i f) j = lookupL l j := by
  induction l with
  | nil => simp [lookupL, updL]
  | cons p t ih =>
    rw [show p = (p.1, p.2) from rfl, updL]
    by_cases hk : p.1 = i
    · rw [if_pos hk, lookupL, lookupL, if_neg (by rw [hk]; exact fun hj => h hj.symm),
        if_neg (by rw [hk]; exact fun hj => h hj.symm)]
    · rw [if_neg hk, lookupL, lookupL]
      by_cases hj : p.1 = j
      · rw [if_pos hj, if_pos hj]
      · rw [if_neg hj, if_neg hj, ih]

theorem mem_updL {l : List (String × Account)} {i : String} {f : Account → Account}
    {p' : String × Account} (h : p' ∈ updL l i f) :
    p' ∈ l ∨ ∃ a, lookupL l i = some a ∧ p' = (i, f a) := by
  induction l with
  | nil => simp [updL] at h
  | cons p t ih =>
    rw [show p = (p.1, p.2) from rfl, updL] at h
    by_cases hk : p.1 = i
    · rw [if_pos hk] at h
      rcases List.mem_cons.mp h with h1 | h1
      · exact Or.inr ⟨p.2, by rw [lookupL, if_pos hk], by rw [h1, hk]⟩
      · exact Or.inl (List.mem_cons_of_mem _ h1)
    · rw [if_neg hk] at h
      rcases List.mem_cons.mp h with h1 | h1
      · exact Or.inl (by rw [h1]; exact List.mem_cons_self _ _)
      · rcases ih h1 with h2 | ⟨a, ha, hp⟩
        · exact Or.inl (List.mem_cons_of_mem _ h2)
        · exact Or.inr ⟨a, by rw [lookupL, if_neg hk]; exact ha, hp⟩

theorem map_iban_updL (l : List (String × Account)) (i : String) (f : Account → Account)
    (hf : ∀ a, (f a).Iban = a.Iban) :
    (updL l i f).map (fun p => (Prod.snd p).Iban) = l.map (fun p => (Prod.snd p).Iban) := by
  induction l with
  | nil => simp [updL]
  | cons p t ih =>
    rw [show p = (p.1, p.2) from rfl, updL]
    by_cases hk : p.1 = i
    · rw [if_pos hk]; simp [hf]
    · rw [if_neg hk]; simp only [List.map_cons, ih]

theorem mapFind_mem {r : InMemoryAccountRepository} {i : String} {a : Account}
    (h : r.mapFind i = some a) : a ∈ r.accountsList := by
  unfold InMemoryAccountRepository.mapFind at h
  unfold InMemoryAccountRepository.accountsList
  by_cases h1 : i = r.DestructionAccount.Iban
  · rw [if_pos h1] at h
    simp only [Option.some.injEq] at h
    simp [← h]
  · rw [if_neg h1] at h
    by_cases h2 : i = r.EmissionAccount.Iban
    · rw [if_pos h2] at h
      simp only [Option.some.injEq] at h
      simp [← h]
    · rw [if_neg h2] at h
      simp [lookupL_mem h]

theorem mapFind_updateAt_self (r : InMemoryAccountRepository) (i : String)
    (f : Account → Account) (hf : ∀ a, (f a).Iban = a.Iban) :
    (r.updateAt i f).mapFind i = (r.mapFind i).map f := by
  unfold InMemoryAccountRepository.updateAt
  by_cases h1 : i = r.DestructionAccount.Iban
  · rw [if_pos h1]
    unfold InMemoryAccountRepository.mapFind
    rw [if_pos (show i = (f r.DestructionAccount).Iban by rw [hf]; exact h1),
      if_pos h1, Option.map_some']
  · rw [if_neg h1]
    by_cases h2 : i = r.EmissionAccount.Iban
    · rw [if_pos h2]
      unfold InMemoryAccountRepository.mapFind
      rw [if_neg (by simpa using h1), if_neg h1,
        if_pos (show i = (f r.EmissionAccount).Iban by rw [hf]; exact h2),
        if_pos h2, Option.map_some']
    · rw [if_neg h2]
      unfold InMemoryAccountRepository.mapFind
      rw [if_neg (by simpa using h1), if_neg (by simpa using h2),
        if_neg h1, if_neg h2, lookupL_updL_self]

theorem mapFind_updateAt_ne (r : InMemoryAccountRepository) {i j : String}
    (f : Account → Account) (hf : ∀ a, (f a).Iban = a.Iban) (hne : j ≠ i) :
    (r.updateAt i f).mapFind j = r.mapFind j := by
  unfold InMemoryAccountRepository.updateAt
  by_cases h1 : i = r.DestructionAccount.Iban
  · rw [if_pos h1]
    unfold InMemoryAccountRepository.mapFind
    have hj1 : ¬ j = (f r.DestructionAccount).Iban := by
      rw [hf]; rw [← h1]; exact hne
    have hj1' : ¬ j = r.DestructionAccount.Iban := by rw [← h1]; exact hne
    rw [if_neg hj1, if_neg hj1']
  · rw [if_neg h1]
    by_cases h2 : i = r.EmissionAccount.Iban
    · rw [if_pos h2]
      unfold InMemoryAccountRepository.mapFind
      have hj2 : ¬ j = (f r.EmissionAccount).Iban := by
        rw [hf]; rw [← h2]; exact hne
      have hj2' : ¬ j = r.EmissionAccount.Iban := by rw [← h2]; exact hne
      simp only [hj2, hj2', if_false]
    · rw [if_neg h2]
      unfold InMemoryAccountRepository.mapFind
      by_cases hd : j = r.DestructionAccount.Iban
      · rw [if_pos hd, if_pos hd]
      · rw [if_neg hd, if_neg hd]
        by_cases he : j = r.EmissionAccount.Iban
        · rw [if_pos he, if_pos he]
        · rw [if_neg he, if_neg he, lookupL_updL_ne _ _ hne]

theorem mem_accountsList_updateAt {r : InMemoryAccountRepository} {i : String}
    {f : Account → Account} {a' : Account} (h : a' ∈ (r.updateAt i f).accountsList) :
    a' ∈ r.accountsList ∨ ∃ a, r.mapFind i = some a ∧ a' = f a := by
  unfold InMemoryAccountRepository.updateAt at h
  unfold InMemoryAccountRepository.accountsList at h ⊢
  unfold InMemoryAccountRepository.mapFind
  by_cases h1 : i = r.DestructionAccount.Iban
  · rw [if_pos h1] at h
    simp only [List.mem_cons] at h
    rcases h with h | h | h
    · exact Or.inl (by simp [h])
    · exact Or.inr ⟨r.DestructionAccount, by rw [if_pos h1], h⟩
    · exact Or.inl (by simp [h])
  · rw [if_neg h1] at h
    by_cases h2 : i = r.EmissionAccount.Iban
    · rw [if_pos h2] at h
      simp only [List.mem_cons] at h
      rcases h with h | h | h
      · exact Or.inr ⟨r.EmissionAccount, by rw [if_neg h1, if_pos h2], h⟩
      · exact Or.inl (by simp [h])
      · exact Or.inl (by simp [h])
    · rw [if_neg h2] at h
      simp only [List.mem_cons] at h
      rcases h with h | h | h
      · exact Or.inl (by simp [h])
      · exact Or.inl (by simp [h])
      · simp only [List.mem_map] at h
        obtain ⟨p, hp, hpa⟩ := h
        rcases mem_updL hp with hmem | ⟨a, ha, hpe⟩
        · refine Or.inl ?_
          simp only [List.mem_cons, List.mem_map]
          exact Or.inr (Or.inr ⟨p, hmem, hpa⟩)
        · refine Or.inr ⟨a, ?_, ?_⟩
          · rw [if_neg h1, if_neg h2]; exact ha
          · rw [← hpa, hpe]

theorem ibans_updateAt (r : InMemoryAccountRepository) (i : String)
    (f : Account → Account) (hf : ∀ a, (f a).Iban = a.Iban) :
    (r.updateAt i f).accountsList.map Account.Iban = r.accountsList.map Account.Iban := by
  unfold InMemoryAccountRepository.updateAt
  unfold InMemoryAccountRepository.accountsList
  by_cases h1 : i = r.DestructionAccount.Iban
  · rw [if_pos h1]; simp [hf]
  · rw [if_neg h1]
    by_cases h2 : i = r.EmissionAccount.Iban
    · rw [if_pos h2]; simp [hf]
    · rw [if_neg h2]
      simp only [List.map_cons, List.map_map]
      rw [show (Account.Iban ∘ Prod.snd : String × Account → String)
          = fun p => (Prod.snd p).Iban from rfl, map_iban_updL _ _ _ hf]

theorem emission_mem (r : InMemoryAccountRepository) :
    r.EmissionAccount ∈ r.accountsList := by
  unfold InMemoryAccountRepository.accountsList; simp

theorem destruction_mem (r : InMemoryAccountRepository) :
    r.DestructionAccount ∈ r.accountsList := by
  unfold InMemoryAccountRepository.accountsList; simp

/-! ## Preservation of the balance invariant by every operation -/

theorem Add_ok {acc : Account} {amount : ℚ} (hb : 0 ≤ acc.Balance) (ha : 0 ≤ amount) :
    IsCentM (acc.Add amount).Balance ∧ 0 ≤ (acc.Add amount).Balance := by
  unfold Account.Add roundAndExtractFractions
  refine ⟨round_centM _, round_nonneg ?_⟩
  have := round_nonneg ha
  dsimp only
  linarith

theorem Deduct_ok {acc : Account} {amount : ℚ}
    (hb : (roundAndExtractFractions amount).1 ≤ acc.Balance) :
    IsCentM (acc.Deduct amount).Balance ∧ 0 ≤ (acc.Deduct amount).Balance := by
  unfold Account.Deduct
  unfold roundAndExtractFractions at hb ⊢
  dsimp only at hb ⊢
  exact ⟨round_centM _, round_nonneg (by linarith)⟩

theorem updateAt_AllOk {r : InMemoryAccountRepository} {i : String} {f : Account → Account}
    (h : r.AllOk)
    (hf : ∀ a, r.mapFind i = some a → IsCentM a.Balance ∧ 0 ≤ a.Balance →
      IsCentM (f a).Balance ∧ 0 ≤ (f a).Balance) :
    (r.updateAt i f).AllOk := by
  intro a' ha'
  rcases mem_accountsList_updateAt ha' with hm | ⟨a, ha, rfl⟩
  · exact h _ hm
  · exact hf a ha (h _ (mapFind_mem ha))

theorem EmitMoney_AllOk {r : InMemoryAccountRepository} (h : r.AllOk) (amount : ℚ) :
    (r.EmitMoney amount).2.AllOk := by
  unfold InMemoryAccountRepository.EmitMoney
  split_ifs with h1 h2 h3
  · exact h
  · exact h
  · exact h
  · push_neg at h3
    intro a ha
    unfold InMemoryAccountRepository.accountsList at ha
    simp only [List.mem_cons] at ha
    rcases ha with rfl | rfl | ha
    · exact Add_ok (h _ (emission_mem r)).2 h3
    · exact h _ (destruction_mem r)
    · exact h _ (by unfold InMemoryAccountRepository.accountsList; simp [ha])

theorem DestructMoney_AllOk {r : InMemoryAccountRepository} (h : r.AllOk)
    (iban : String) (amount : ℚ) : (r.DestructMoney iban amount).2.AllOk := by
  unfold InMemoryAccountRepository.DestructMoney
  split_ifs with h1 h2 h3
  · exact h
  · exact h
  · exact h
  · cases hm : r.mapFind (stripSpaces iban) with
    | none => exact h
    | some acc =>
      push_neg at h3
      dsimp only
      split_ifs with h4 h5 h6
      · exact h
      · exact h
      · exact h
      · push_neg at h6
        have hr1 : (r.updateAt (stripSpaces iban) (fun a => a.Deduct amount)).AllOk := by
          refine updateAt_AllOk h ?_
          intro a ha _
          rw [hm] at ha
          injection ha with ha
          subst ha
          exact Deduct_ok h6
        intro a ha
        unfold InMemoryAccountRepository.accountsList at ha
        simp only [List.mem_cons] at ha
        rcases ha with rfl | rfl | ha
        · exact hr1 _ (emission_mem _)
        · exact Add_ok (hr1 _ (destruction_mem _)).2 h3
        · exact hr1 _ (by unfold InMemoryAccountRepository.accountsList; simp [ha])

theorem TransferMoney_AllOk {r : InMemoryAccountRepository} (h : r.AllOk)
    (sender recipient : String) (amount : ℚ) :
    (r.TransferMoney sender recipient amount).2.AllOk := by
  unfold InMemoryAccountRepository.TransferMoney
  cases hs : r.mapFind (stripSpaces sender) with
  | none => exact h
  | some sAcc =>
    dsimp only
    split_ifs with h1 h2 h3 h4
    · exact h
    · exact h
    · exact h
    · exact h
    · push_neg at h3 h4
      cases ht : r.mapFind (stripSpaces recipient) with
      | none => exact h
      | some rAcc =>
        dsimp only
        split_ifs with h5 h6
        · exact h
        · exact h
        · have hr1 : (r.updateAt (stripSpaces sender) (fun a => a.Deduct amount)).AllOk := by
            refine updateAt_AllOk h ?_
            intro a ha _
            rw [hs] at ha
            injection ha with ha
            subst ha
            exact Deduct_ok h4
          refine updateAt_AllOk hr1 ?_
          intro a _ hok
          exact Add_ok hok.2 h3

theorem TransferMoneyJson_AllOk {r : InMemoryAccountRepository} (h : r.AllOk)
    (req : Option MoneyTransferReq) : (r.TransferMoneyJson req).2.AllOk := by
  unfold InMemoryAccountRepository.TransferMoneyJson
  cases req with
  | none => exact h
  | some q => exact TransferMoney_AllOk h _ _ _

theorem NewAccount_zero_ok (iban : String) (s : AccountStatus) (t : AccountType) :
    IsCentM (NewAccount iban s t 0).Balance ∧ 0 ≤ (NewAccount iban s t 0).Balance := by
  unfold NewAccount roundAndExtractFractions
  exact ⟨round_centM _, round_nonneg le_rfl⟩

theorem OpenAccount_AllOk {r : InMemoryAccountRepository} (h : r.AllOk)
    (cands : List String) : (r.OpenAccount cands).2.AllOk := by
  unfold InMemoryAccountRepository.OpenAccount
  cases ho : openAccountLoop r (cands.length + 1) cands with
  | error e => exact h
  | ok iban =>
    intro a ha
    unfold InMemoryAccountRepository.accountsList at ha
    simp only [List.mem_cons, List.map_append, List.mem_append] at ha
    rcases ha with rfl | rfl | ha | ha
    · exact h _ (emission_mem r)
    · exact h _ (destruction_mem r)
    · exact h _ (by unfold InMemoryAccountRepository.accountsList; simp [ha])
    · simp only [List.map_cons, List.map_nil, List.mem_cons, List.not_mem_nil, or_false] at ha
      rw [ha]
      exact NewAccount_zero_ok _ _ _

theorem BlockAccount_AllOk {r : InMemoryAccountRepository} (h : r.AllOk) (iban : String) :
    (r.BlockAccount iban).2.AllOk := by
  unfold InMemoryAccountRepository.BlockAccount
  cases hm : r.mapFind (stripSpaces iban) with
  | none => exact h
  | some acc =>
    dsimp only
    split_ifs with h1
    · exact h
    · exact updateAt_AllOk h (fun a _ hok => hok)

theorem ActivateAccount_AllOk {r : InMemoryAccountRepository} (h : r.AllOk) (iban : String) :
    (r.ActivateAccount iban).2.AllOk := by
  unfold InMemoryAccountRepository.ActivateAccount
  cases hm : r.mapFind (stripSpaces iban) with
  | none => exact h
  | some acc =>
    dsimp only
    split_ifs with h1
    · exact h
    · exact updateAt_AllOk h (fun a _ hok => hok)

theorem Step_AllOk {r r' : InMemoryAccountRepository} (h : r.AllOk) (hs : Step r r') :
    r'.AllOk := by
  cases hs with
  | emit amount => exact EmitMoney_AllOk h amount
  | destruct iban amount => exact DestructMoney_AllOk h iban amount
  | openAcc cands => exact OpenAccount_AllOk h cands
  | transfer s t amount => exact TransferMoney_AllOk h s t amount
  | transferJson req => exact TransferMoneyJson_AllOk h req
  | block iban => exact BlockAccount_AllOk h iban
  | activate iban => exact ActivateAccount_AllOk h iban

theorem NewRepo_AllOk (eIban dIban : String) :
    (NewInMemoryAccountRepository eIban dIban).AllOk := by
  intro a ha
  unfold NewInMemoryAccountRepository InMemoryAccountRepository.accountsList at ha
  simp only [List.map_nil, List.mem_cons, List.not_mem_nil, or_false] at ha
  rcases ha with rfl | rfl
  · exact NewAccount_zero_ok _ _ _
  · exact NewAccount_zero_ok _ _ _

theorem Reaches_AllOk {eIban dIban : String} {r : InMemoryAccountRepository}
    (h : Reaches (NewInMemoryAccountRepository eIban dIban) r) : r.AllOk := by
  induction h with
  | base => exact NewRepo_AllOk eIban dIban
  | step _ hs ih => exact Step_AllOk ih hs

/-! ## Preservation of IBAN uniqueness -/

theorem lookupL_pair_mem {l : List (String × Account)} {i : String} {a : Account}
    (h : lookupL l i = some a) : (i, a) ∈ l := by
  induction l with
  | nil => simp [lookupL] at h
  | cons p t ih =>
    rw [show p = (p.1, p.2) from rfl, lookupL] at h
    by_cases hk : p.1 = i
    · rw [if_pos hk] at h
      injection h with h
      subst h
      rw [← hk]
      exact List.mem_cons_self _ _
    · rw [if_neg hk] at h
      exact List.mem_cons_of_mem _ (ih h)

theorem updateAt_KeysMatch {r : InMemoryAccountRepository} {i : String} {f : Account → Account}
    (h : r.KeysMatch) (hf : ∀ a, (f a).Iban = a.Iban) : (r.updateAt i f).KeysMatch := by
  unfold InMemoryAccountRepository.updateAt
  split_ifs with h1 h2
  · exact h
  · exact h
  · intro p hp
    rcases mem_updL hp with hm | ⟨a, ha, rfl⟩
    · exact h _ hm
    · have := h _ (lookupL_pair_mem ha)
      dsimp only at this ⊢
      rw [hf, this]

theorem updateAt_UOk {r : InMemoryAccountRepository} {i : String} {f : Account → Account}
    (h : r.UOk) (hf : ∀ a, (f a).Iban = a.Iban) : (r.updateAt i f).UOk := by
  refine ⟨updateAt_KeysMatch h.1 hf, ?_⟩
  unfold InMemoryAccountRepository.IbanUnique
  rw [ibans_updateAt r i f hf]
  exact h.2

theorem setDestruction_UOk {r : InMemoryAccountRepository} {x : Account}
    (h : r.UOk) (hx : x.Iban = r.DestructionAccount.Iban) :
    ({ r with DestructionAccount := x } : InMemoryAccountRepository).UOk := by
  refine ⟨h.1, ?_⟩
  have h2 := h.2
  unfold InMemoryAccountRepository.IbanUnique InMemoryAccountRepository.accountsList at h2 ⊢
  simpa [hx] using h2

theorem setEmission_UOk {r : InMemoryAccountRepository} {x : Account}
    (h : r.UOk) (hx : x.Iban = r.EmissionAccount.Iban) :
    ({ r with EmissionAccount := x } : InMemoryAccountRepository).UOk := by
  refine ⟨h.1, ?_⟩
  have h2 := h.2
  unfold InMemoryAccountRepository.IbanUnique InMemoryAccountRepository.accountsList at h2 ⊢
  simpa [hx] using h2

theorem EmitMoney_UOk {r : InMemoryAccountRepository} (h : r.UOk) (amount : ℚ) :
    (r.EmitMoney amount).2.UOk := by
  unfold InMemoryAccountRepository.EmitMoney
  split_ifs with h1 h2 h3
  · exact h
  · exact h
  · exact h
  · exact setEmission_UOk h (Add_Iban _ _)

theorem DestructMoney_UOk {r : InMemoryAccountRepository} (h : r.UOk)
    (iban : String) (amount : ℚ) : (r.DestructMoney iban amount).2.UOk := by
  unfold InMemoryAccountRepository.DestructMoney
  split_ifs with h1 h2 h3
  · exact h
  · exact h
  · exact h
  · cases hm : r.mapFind (stripSpaces iban) with
    | none => exact h
    | some acc =>
      dsimp only
      split_ifs with h4 h5 h6
      · exact h
      · exact h
      · exact h
      · exact setDestruction_UOk (updateAt_UOk h (fun a => Deduct_Iban a amount))
          (Add_Iban _ _)

theorem TransferMoney_UOk {r : InMemoryAccountRepository} (h : r.UOk)
    (sender recipient : String) (amount : ℚ) :
    (r.TransferMoney sender recipient amount).2.UOk := by
  unfold InMemoryAccountRepository.TransferMoney
  cases hs : r.mapFind (stripSpaces sender) with
  | none => exact h
  | some sAcc =>
    dsimp only
    split_ifs with h1 h2 h3 h4
    · exact h
    · exact h
    · exact h
    · exact h
    · cases ht : r.mapFind (stripSpaces recipient) with
      | none => exact h
      | some rAcc =>
        dsimp only
        split_ifs with h5 h6
        · exact h
        · exact h
        · exact updateAt_UOk (updateAt_UOk h (fun a => Deduct_Iban a amount))
            (fun a => Add_Iban a amount)

theorem TransferMoneyJson_UOk {r : InMemoryAccountRepository} (h : r.UOk)
    (req : Option MoneyTransferReq) : (r.TransferMoneyJson req).2.UOk := by
  unfold InMemoryAccountRepository.TransferMoneyJson
  cases req with
  | none => exact h
  | some q => exact TransferMoney_UOk h _ _ _

theorem BlockAccount_UOk {r : InMemoryAccountRepository} (h : r.UOk) (iban : String) :
    (r.BlockAccount iban).2.UOk := by
  unfold InMemoryAccountRepository.BlockAccount
  cases hm : r.mapFind (stripSpaces iban) with
  | none => exact h
  | some acc =>
    dsimp only
    split_ifs with h1
    · exact h
    · exact updateAt_UOk h (fun a => rfl)

theorem ActivateAccount_UOk {r : InMemoryAccountRepository} (h : r.UOk) (iban : String) :
    (r.ActivateAccount iban).2.UOk := by
  unfold InMemoryAccountRepository.ActivateAccount
  cases hm : r.mapFind (stripSpaces iban) with
  | none => exact h
  | some acc =>
    dsimp only
    split_ifs with h1
    · exact h
    · exact updateAt_UOk h (fun a => rfl)

theorem mapFind_eq_none {r : InMemoryAccountRepository} {i : String}
    (h : r.mapFind i = none) :
    i ≠ r.DestructionAccount.Iban ∧ i ≠ r.EmissionAccount.Iban ∧
      lookupL r.OrdinaryAccounts i = none := by
  unfold InMemoryAccountRepository.mapFind at h
  split_ifs at h with h1 h2
  · exact ⟨h1, h2, h⟩

theorem GenerateValidBelarusianIban_ok_valid :
    ∀ {fuel : ℕ} {cands : List String} {iban : String} {rest : List String},
      GenerateValidBelarusianIban fuel cands = .ok (iban, rest) → IsValidIban iban = true := by
  intro fuel
  induction fuel with
  | zero => intro cands iban rest h; cases cands <;> simp [GenerateValidBelarusianIban] at h
  | succ n ih =>
    intro cands iban rest h
    cases cands with
    | nil => simp [GenerateValidBelarusianIban] at h
    | cons bban tl =>
      rw [GenerateValidBelarusianIban] at h
      cases hg : GenerateBelarusianIban bban with
      | none => rw [hg] at h; exact ih h
      | some cand =>
        rw [hg] at h
        dsimp only at h
        by_cases hv : IsValidIban cand
        · rw [if_pos hv] at h
          injection h with h
          rw [← (Prod.mk.injEq _ _ _ _ |>.mp h).1]
          exact hv
        · rw [if_neg hv] at h
          exact ih h

theorem openAccountLoop_ok_not_exists {r : InMemoryAccountRepository} :
    ∀ {fuel : ℕ} {cands : List String} {iban : String},
      openAccountLoop r fuel cands = .ok iban → r.accountExists iban = false := by
  intro fuel
  induction fuel with
  | zero => intro cands iban h; simp [openAccountLoop] at h
  | succ n ih =>
    intro cands iban h
    rw [openAccountLoop] at h
    cases hg : GenerateValidBelarusianIban 1000001 cands with
    | error e => rw [hg] at h; simp at h
    | ok p =>
      rw [hg] at h
      dsimp only at h
      by_cases he : r.accountExists p.1
      · rw [if_pos he] at h
        exact ih h
      · rw [if_neg he] at h
        injection h with h
        rw [← h]
        exact Bool.of_not_eq_true he

theorem not_exists_fresh {r : InMemoryAccountRepository} {iban : String}
    (hk : r.KeysMatch) (h : r.accountExists iban = false) :
    iban ∉ r.accountsList.map Account.Iban := by
  have hnone : r.mapFind iban = none := by
    unfold InMemoryAccountRepository.accountExists at h
    cases hm : r.mapFind iban with
    | none => rfl
    | some a => rw [hm] at h; simp at h
  obtain ⟨hd, he, hl⟩ := mapFind_eq_none hnone
  unfold InMemoryAccountRepository.accountsList
  simp only [List.map_cons, List.mem_cons, List.map_map, List.mem_map]
  push_neg
  refine ⟨fun hx => he hx, fun hx => hd hx, ?_⟩
  intro p hp
  rw [Function.comp_apply, hk _ hp]
  exact fun hx => (lookupL_eq_none_iff.mp hl p hp) hx

theorem OpenAccount_UOk {r : InMemoryAccountRepository} (h : r.UOk)
    (cands : List String) : (r.OpenAccount cands).2.UOk := by
  unfold InMemoryAccountRepository.OpenAccount
  cases ho : openAccountLoop r (cands.length + 1) cands with
  | error e => exact h
  | ok iban =>
    have hfresh := not_exists_fresh h.1 (openAccountLoop_ok_not_exists ho)
    constructor
    · intro p hp
      simp only [List.mem_append, List.mem_singleton] at hp
      rcases hp with hp | hp
      · exact h.1 _ hp
      · rw [hp]; rfl
    · have h2 := h.2
      unfold InMemoryAccountRepository.IbanUnique at h2 ⊢
      have heq : ({ r with OrdinaryAccounts := r.OrdinaryAccounts ++
            [(iban, NewAccount iban .Active .Ordinary 0)] } :
              InMemoryAccountRepository).accountsList.map Account.Iban
          = r.accountsList.map Account.Iban ++ [iban] := by
        unfold InMemoryAccountRepository.accountsList NewAccount
        simp
      rw [heq, List.nodup_append]
      refine ⟨h2, List.nodup_singleton _, ?_⟩
      intro x hx hx2
      simp only [List.mem_singleton] at hx2
      subst hx2
      exact hfresh hx

theorem Step_UOk {r r' : InMemoryAccountRepository} (h : r.UOk) (hs : Step r r') :
    r'.UOk := by
  cases hs with
  | emit amount => exact EmitMoney_UOk h amount
  | destruct iban amount => exact DestructMoney_UOk h iban amount
  | openAcc cands => exact OpenAccount_UOk h cands
  | transfer s t amount => exact TransferMoney_UOk h s t amount
  | transferJson req => exact TransferMoneyJson_UOk h req
  | block iban => exact BlockAccount_UOk h iban
  | activate iban => exact ActivateAccount_UOk h iban

theorem NewRepo_UOk {eIban dIban : String} (h : stripSpaces eIban ≠ stripSpaces dIban) :
    (NewInMemoryAccountRepository eIban dIban).UOk := by
  constructor
  · intro p hp
    simp [NewInMemoryAccountRepository] at hp
  · unfold InMemoryAccountRepository.IbanUnique NewInMemoryAccountRepository
      InMemoryAccountRepository.accountsList NewAccount
    simp [h]

theorem Reaches_UOk {eIban dIban : String} {r : InMemoryAccountRepository}
    (hne : stripSpaces eIban ≠ stripSpaces dIban)
    (h : Reaches (NewInMemoryAccountRepository eIban dIban) r) : r.UOk := by
  induction h with
  | base => exact NewRepo_UOk hne
  | step _ hs ih => exact Step_UOk ih hs

/-! ## Error paths leave the state unchanged -/

theorem RetrieveEmissionAccountIban_state (r : InMemoryAccountRepository) :
    (r.RetrieveEmissionAccountIban).2 = r := by
  unfold InMemoryAccountRepository.RetrieveEmissionAccountIban
  split_ifs <;> rfl

theorem RetrieveDestructionAccountIban_state (r : InMemoryAccountRepository) :
    (r.RetrieveDestructionAccountIban).2 = r := by
  unfold InMemoryAccountRepository.RetrieveDestructionAccountIban
  split_ifs <;> rfl

theorem RetrieveAllAccountsAsJson_state (r : InMemoryAccountRepository) :
    (r.RetrieveAllAccountsAsJson).2 = r := rfl

theorem EmitMoney_err_or (r : InMemoryAccountRepository) (amount : ℚ) :
    (r.EmitMoney amount).1 = none ∨ (r.EmitMoney amount).2 = r := by
  unfold InMemoryAccountRepository.EmitMoney
  split_ifs
  · right; rfl
  · right; rfl
  · right; rfl
  · left; rfl

theorem DestructMoney_err_or (r : InMemoryAccountRepository) (iban : String) (amount : ℚ) :
    (r.DestructMoney iban amount).1 = none ∨ (r.DestructMoney iban amount).2 = r := by
  unfold InMemoryAccountRepository.DestructMoney
  split_ifs
  · right; rfl
  · right; rfl
  · right; rfl
  · cases hm : r.mapFind (stripSpaces iban) with
    | none => right; rfl
    | some acc =>
      dsimp only
      split_ifs
      · right; rfl
      · right; rfl
      · right; rfl
      · left; rfl

theorem TransferMoney_err_or (r : InMemoryAccountRepository) (sender recipient : String)
    (amount : ℚ) :
    (r.TransferMoney sender recipient amount).1 = none ∨
      (r.TransferMoney sender recipient amount).2 = r := by
  unfold InMemoryAccountRepository.TransferMoney
  cases hs : r.mapFind (stripSpaces sender) with
  | none => right; rfl
  | some sAcc =>
    dsimp only
    split_ifs
    · right; rfl
    · right; rfl
    · right; rfl
    · right; rfl
    · cases ht : r.mapFind (stripSpaces recipient) with
      | none => right; rfl
      | some rAcc =>
        dsimp only
        split_ifs
        · right; rfl
        · right; rfl
        · left; rfl

theorem TransferMoneyJson_err_or (r : InMemoryAccountRepository)
    (req : Option MoneyTransferReq) :
    (r.TransferMoneyJson req).1 = none ∨ (r.TransferMoneyJson req).2 = r := by
  unfold InMemoryAccountRepository.TransferMoneyJson
  cases req with
  | none => right; rfl
  | some q => exact TransferMoney_err_or r q.sender q.recipient q.amount

theorem OpenAccount_err_or (r : InMemoryAccountRepository) (cands : List String) :
    (∃ a, (r.OpenAccount cands).1 = .ok a) ∨ (r.OpenAccount cands).2 = r := by
  unfold InMemoryAccountRepository.OpenAccount
  cases ho : openAccountLoop r (cands.length + 1) cands with
  | error e => right; rfl
  | ok iban => exact Or.inl ⟨_, rfl⟩

theorem BlockAccount_err_or (r : InMemoryAccountRepository) (iban : String) :
    (r.BlockAccount iban).1 = none ∨ (r.BlockAccount iban).2 = r := by
  unfold InMemoryAccountRepository.BlockAccount
  cases hm : r.mapFind (stripSpaces iban) with
  | none => right; rfl
  | some acc =>
    dsimp only
    split_ifs
    · right; rfl
    · left; rfl

theorem ActivateAccount_err_or (r : InMemoryAccountRepository) (iban : String) :
    (r.ActivateAccount iban).1 = none ∨ (r.ActivateAccount iban).2 = r := by
  unfold InMemoryAccountRepository.ActivateAccount
  cases hm : r.mapFind (stripSpaces iban) with
  | none => right; rfl
  | some acc =>
    dsimp only
    split_ifs
    · right; rfl
    · left; rfl

/-! ## Success characterization of `TransferMoney` -/

theorem balanceOf_some {r : InMemoryAccountRepository} {i : String} {a : Account}
    (h : r.mapFind i = some a) : r.balanceOf i = a.Balance + a.Fractions := by
  unfold InMemoryAccountRepository.balanceOf
  rw [h]

theorem TransferMoney_success {r : InMemoryAccountRepository} {sender recipient : String}
    {amount : ℚ} (h : (r.TransferMoney sender recipient amount).1 = none) :
    ∃ sAcc rAcc,
      r.mapFind (stripSpaces sender) = some sAcc ∧
      sAcc.Iban = stripSpaces sender ∧
      sAcc.Status ≠ .Blocked ∧
      0 ≤ amount ∧
      (roundAndExtractFractions amount).1 ≤ sAcc.Balance ∧
      r.mapFind (stripSpaces recipient) = some rAcc ∧
      rAcc.Iban = stripSpaces recipient ∧
      rAcc.Status ≠ .Blocked ∧
      (r.TransferMoney sender recipient amount).2 =
        (r.updateAt (stripSpaces sender) (fun a => a.Deduct amount)).updateAt
          (stripSpaces recipient) (fun a => a.Add amount) := by
  unfold InMemoryAccountRepository.TransferMoney at h ⊢
  cases hs : r.mapFind (stripSpaces sender) with
  | none => rw [hs] at h; simp at h
  | some sAcc =>
    rw [hs] at h
    dsimp only at h ⊢
    split_ifs at h ⊢ with h1 h2 h3 h4
    cases ht : r.mapFind (stripSpaces recipient) with
    | none => rw [ht] at h; simp at h
    | some rAcc =>
      rw [ht] at h
      dsimp only at h ⊢
      split_ifs at h ⊢ with h5 h6
      push_neg at h1 h3 h4 h5
      exact ⟨sAcc, rAcc, rfl, h1, h2, h3, h4, rfl, h5, h6, rfl⟩

/-! ## Negative amounts and unknown IBANs -/

theorem EmitMoney_neg {r : InMemoryAccountRepository} {amount : ℚ} (h : amount < 0) :
    (r.EmitMoney amount).1 ≠ none ∧ (r.EmitMoney amount).2 = r := by
  unfold InMemoryAccountRepository.EmitMoney
  split_ifs with h1 h2
  · exact ⟨by simp, rfl⟩
  · exact ⟨by simp, rfl⟩
  · exact ⟨by simp, rfl⟩

theorem EmitMoney_neg_kind {r : InMemoryAccountRepository} {amount : ℚ} (h : amount < 0)
    (ht : r.EmissionAccount.Typ = .MonetaryEmission)
    (hb : r.EmissionAccount.Status ≠ .Blocked) :
    (r.EmitMoney amount).1 = some .NegativeAmountError := by
  unfold InMemoryAccountRepository.EmitMoney
  rw [if_neg (by simp [ht]), if_neg hb, if_pos h]

theorem DestructMoney_neg {r : InMemoryAccountRepository} {iban : String} {amount : ℚ}
    (h : amount < 0) :
    (r.DestructMoney iban amount).1 ≠ none ∧ (r.DestructMoney iban amount).2 = r := by
  unfold InMemoryAccountRepository.DestructMoney
  split_ifs with h1 h2
  · exact ⟨by simp, rfl⟩
  · exact ⟨by simp, rfl⟩
  · exact ⟨by simp, rfl⟩

theorem DestructMoney_neg_kind {r : InMemoryAccountRepository} {iban : String} {amount : ℚ}
    (h : amount < 0) (ht : r.DestructionAccount.Typ = .MonetaryDestruction)
    (hb : r.DestructionAccount.Status ≠ .Blocked) :
    (r.DestructMoney iban amount).1 = some .NegativeAmountError := by
  unfold InMemoryAccountRepository.DestructMoney
  rw [if_neg (by simp [ht]), if_neg hb, if_pos h]

theorem TransferMoney_neg {r : InMemoryAccountRepository} {sender recipient : String}
    {amount : ℚ} (h : amount < 0) :
    (r.TransferMoney sender recipient amount).1 ≠ none ∧
      (r.TransferMoney sender recipient amount).2 = r := by
  refine ⟨?_, ?_⟩
  · intro hnone
    obtain ⟨_, _, _, _, _, hamt, _⟩ := TransferMoney_success hnone
    exact absurd h (not_lt.mpr hamt)
  · rcases TransferMoney_err_or r sender recipient amount with h0 | h0
    · obtain ⟨_, _, _, _, _, hamt, _⟩ := TransferMoney_success h0
      exact absurd h (not_lt.mpr hamt)
    · exact h0

theorem TransferMoney_neg_kind {r : InMemoryAccountRepository} {sender recipient : String}
    {amount : ℚ} {sAcc : Account} (h : amount < 0)
    (hs : r.mapFind (stripSpaces sender) = some sAcc)
    (hi : sAcc.Iban = stripSpaces sender) (hb : sAcc.Status ≠ .Blocked) :
    (r.TransferMoney sender recipient amount).1 = some .NegativeAmountError := by
  unfold InMemoryAccountRepository.TransferMoney
  rw [hs]
  dsimp only
  rw [if_neg (by simp [hi]), if_neg hb, if_pos h]

theorem TransferMoney_sender_none {r : InMemoryAccountRepository} {sender : String}
    (recipient : String) (amount : ℚ) (hs : r.mapFind (stripSpaces sender) = none) :
    r.TransferMoney sender recipient amount = (some .AccountDoesNotExistError, r) := by
  unfold InMemoryAccountRepository.TransferMoney
  rw [hs]

theorem TransferMoney_recipient_none {r : InMemoryAccountRepository}
    {sender recipient : String} {amount : ℚ} {sAcc : Account}
    (hs : r.mapFind (stripSpaces sender) = some sAcc)
    (hi : sAcc.Iban = stripSpaces sender) (hb : sAcc.Status ≠ .Blocked)
    (hamt : 0 ≤ amount) (hbal : (roundAndExtractFractions amount).1 ≤ sAcc.Balance)
    (ht : r.mapFind (stripSpaces recipient) = none) :
    (r.TransferMoney sender recipient amount).1 = some .AccountDoesNotExistError := by
  unfold InMemoryAccountRepository.TransferMoney
  rw [hs]
  dsimp only
  rw [if_neg (by simp [hi]), if_neg hb, if_neg (not_lt.mpr hamt), if_neg (not_lt.mpr hbal), ht]

theorem TransferMoney_not_found {r : InMemoryAccountRepository} {sender recipient : String}
    {amount : ℚ}
    (h : r.mapFind (stripSpaces sender) = none ∨ r.mapFind (stripSpaces recipient) = none) :
    (r.TransferMoney sender recipient amount).1 ≠ none ∧
      (r.TransferMoney sender recipient amount).2 = r := by
  have h1 : (r.TransferMoney sender recipient amount).1 ≠ none := by
    intro hnone
    obtain ⟨sAcc, rAcc, hs, _, _, _, _, ht, _⟩ := TransferMoney_success hnone
    rcases h with h | h
    · rw [h] at hs; cases hs
    · rw [h] at ht; cases ht
  refine ⟨h1, ?_⟩
  rcases TransferMoney_err_or r sender recipient amount with h0 | h0
  · exact absurd h0 h1
  · exact h0

/-! ## Relating `Mod97` over the numeric form to the decimal value -/

theorem digitsVal_modEq {t : List ℕ} :
    ∀ {a b : ℕ}, a ≡ b [MOD 97] → digitsVal a t ≡ digitsVal b t [MOD 97] := by
  induction t with
  | nil => intro a b h; exact h
  | cons d t ih =>
    intro a b h
    unfold digitsVal at ih ⊢
    simp only [List.foldl_cons]
    exact ih (Nat.ModEq.add_right d (h.mul_right 10))

theorem mod97_foldl (ds : List ℕ) :
    ∀ init : ℕ, init < 97 →
      ds.foldl (fun rem d => (rem * 10 + d) % 97) init = digitsVal init ds % 97 := by
  induction ds with
  | nil => intro init h; simp [digitsVal, Nat.mod_eq_of_lt h]
  | cons d t ih =>
    intro init h
    simp only [List.foldl_cons]
    rw [ih _ (Nat.mod_lt _ (by norm_num))]
    have hmq : (init * 10 + d) % 97 ≡ init * 10 + d [MOD 97] := Nat.mod_modEq _ _
    have h2 := @digitsVal_modEq t _ _ hmq
    unfold Nat.ModEq at h2
    rw [h2]
    rfl

theorem Mod97_eq_digitsVal (ds : List ℕ) : Mod97 ds = digitsVal 0 ds % 97 :=
  mod97_foldl ds 0 (by norm_num)

theorem convert_good {s : List Char} :
    ∀ {ds : List ℕ}, ConvertIbanToNumericForm s = some ds → ∀ c ∈ s, goodChar c := by
  induction s with
  | nil => intro ds _ c hc; cases hc
  | cons c0 t ih =>
    intro ds h c hc
    rw [ConvertIbanToNumericForm] at h
    split_ifs at h with h1 h2
    · rcases List.mem_cons.mp hc with rfl | hc
      · exact Or.inl h1
      · cases ht : ConvertIbanToNumericForm t with
        | none => rw [ht] at h; simp at h
        | some ds' => exact ih ht c hc
    · rcases List.mem_cons.mp hc with rfl | hc
      · exact Or.inr h2
      · cases ht : ConvertIbanToNumericForm t with
        | none => rw [ht] at h; simp at h
        | some ds' => exact ih ht c hc

theorem convert_isSome {s : List Char} (h : ∀ c ∈ s, goodChar c) :
    ∃ ds, ConvertIbanToNumericForm s = some ds := by
  induction s with
  | nil => exact ⟨[], rfl⟩
  | cons c t ih =>
    obtain ⟨ds, hds⟩ := ih (fun c' hc' => h c' (List.mem_cons_of_mem _ hc'))
    rcases h c (List.mem_cons_self _ _) with h1 | h2
    · exact ⟨_, by rw [ConvertIbanToNumericForm, if_pos h1, hds]; rfl⟩
    · by_cases h1 : 'A' ≤ c ∧ c ≤ 'Z'
      · exact ⟨_, by rw [ConvertIbanToNumericForm, if_pos h1, hds]; rfl⟩
      · exact ⟨_, by rw [ConvertIbanToNumericForm, if_neg h1, if_pos h2, hds]; rfl⟩

theorem convert_digitsVal {s : List Char} :
    ∀ {ds : List ℕ}, ConvertIbanToNumericForm s = some ds →
      ∀ init : ℕ, digitsVal init ds =
        s.foldl (fun v c =>
          if 'A' ≤ c ∧ c ≤ 'Z' then v * 100 + letterVal c else v * 10 + digitVal c) init := by
  induction s with
  | nil =>
    intro ds h init
    rw [ConvertIbanToNumericForm] at h
    injection h with h
    subst h
    rfl
  | cons c t ih =>
    intro ds h init
    rw [ConvertIbanToNumericForm] at h
    split_ifs at h with h1 h2
    · cases ht : ConvertIbanToNumericForm t with
      | none => rw [ht] at h; simp at h
      | some ds' =>
        rw [ht] at h
        injection h with h
        subst h
        simp only [List.foldl_cons, if_pos h1]
        rw [show digitsVal init (letterVal c / 10 :: letterVal c % 10 :: ds')
            = digitsVal ((init * 10 + letterVal c / 10) * 10 + letterVal c % 10) ds' from rfl,
          ih ht]
        congr 1
        have := Nat.div_add_mod (letterVal c) 10
        omega
    · cases ht : ConvertIbanToNumericForm t with
      | none => rw [ht] at h; simp at h
      | some ds' =>
        rw [ht] at h
        injection h with h
        subst h
        simp only [List.foldl_cons, if_neg h1]
        exact ih ht _

theorem Deduct_Balance_centM (acc : Account) (amount : ℚ) :
    IsCentM (acc.Deduct amount).Balance := round_centM _

/-! ## The claims -/

/-- C1: Conservation under transfer — for every ledger state (reachable from
any construction) and every `TransferMoney(a, b, amt)` call that returns
success, the sum of the balances (two-decimal `Balance` plus `Fractions`
accumulator) of the accounts at the space-stripped IBANs `a` and `b` after
the call equals the sum before the call. -/
theorem C1_transfer_conservation {eIban dIban : String} {r : InMemoryAccountRepository}
    (hreach : Reaches (NewInMemoryAccountRepository eIban dIban) r)
    (sender recipient : String) (amount : ℚ)
    (hsucc : (r.TransferMoney sender recipient amount).1 = none) :
    (r.TransferMoney sender recipient amount).2.balanceOf (stripSpaces sender) +
      (r.TransferMoney sender recipient amount).2.balanceOf (stripSpaces recipient) =
      r.balanceOf (stripSpaces sender) + r.balanceOf (stripSpaces recipient) := by
  obtain ⟨sAcc, rAcc, hs, hsi, hss, hamt, hbal, ht, hti, hts, heq⟩ :=
    TransferMoney_success hsucc
  have hok := Reaches_AllOk hreach
  have hcs : IsCentM sAcc.Balance := (hok _ (mapFind_mem hs)).1
  have hcr : IsCentM rAcc.Balance := (hok _ (mapFind_mem ht)).1
  rw [heq]
  by_cases hst : stripSpaces sender = stripSpaces recipient
  · rw [hst] at hs
    rw [hs] at ht
    injection ht with ht
    subst ht
    rw [hst]
    have k1 : ((r.updateAt (stripSpaces recipient) (fun a => a.Deduct amount))).mapFind
        (stripSpaces recipient) = some (sAcc.Deduct amount) := by
      rw [mapFind_updateAt_self r _ _ (fun a => Deduct_Iban a amount), hs]
      rfl
    have k2 : (((r.updateAt (stripSpaces recipient) (fun a => a.Deduct amount))).updateAt
        (stripSpaces recipient) (fun a => a.Add amount)).mapFind (stripSpaces recipient) =
        some ((sAcc.Deduct amount).Add amount) := by
      rw [mapFind_updateAt_self _ _ _ (fun a => Add_Iban a amount), k1]
      rfl
    rw [balanceOf_some k2, balanceOf_some hs,
      Add_Balance_of_centM (Deduct_Balance_centM sAcc amount),
      Deduct_Balance_of_centM hcs, Add_Fractions, Deduct_Fractions]
    ring
  · have k1 : ((r.updateAt (stripSpaces sender) (fun a => a.Deduct amount))).mapFind
        (stripSpaces sender) = some (sAcc.Deduct amount) := by
      rw [mapFind_updateAt_self r _ _ (fun a => Deduct_Iban a amount), hs]
      rfl
    have k2 : (((r.updateAt (stripSpaces sender) (fun a => a.Deduct amount))).updateAt
        (stripSpaces recipient) (fun a => a.Add amount)).mapFind (stripSpaces sender) =
        some (sAcc.Deduct amount) := by
      rw [mapFind_updateAt_ne _ _ (fun a => Add_Iban a amount) hst, k1]
    have k3 : ((r.updateAt (stripSpaces sender) (fun a => a.Deduct amount))).mapFind
        (stripSpaces recipient) = r.mapFind (stripSpaces recipient) :=
      mapFind_updateAt_ne r _ (fun a => Deduct_Iban a amount) (Ne.symm hst)
    have k4 : (((r.updateAt (stripSpaces sender) (fun a => a.Deduct amount))).updateAt
        (stripSpaces recipient) (fun a => a.Add amount)).mapFind (stripSpaces recipient) =
        some (rAcc.Add amount) := by
      rw [mapFind_updateAt_self _ _ _ (fun a => Add_Iban a amount), k3, ht]
      rfl
    rw [balanceOf_some k2, balanceOf_some k4, balanceOf_some hs, balanceOf_some ht,
      Deduct_Balance_of_centM hcs, Add_Balance_of_centM hcr, Deduct_Fractions, Add_Fractions]
    ring

/-- C1 witness: on the ledger `NewInMemoryAccountRepository("E","D")` after
`EmitMoney(100)`, the transfer `TransferMoney("E","D",50)` succeeds and
conserves the summed balances. -/
theorem C1_transfer_conservation_witness :
    (repoED100.TransferMoney "E" "D" 50).1 = none ∧
    (repoED100.TransferMoney "E" "D" 50).2.balanceOf (stripSpaces "E") +
      (repoED100.TransferMoney "E" "D" 50).2.balanceOf (stripSpaces "D") =
      repoED100.balanceOf (stripSpaces "E") + repoED100.balanceOf (stripSpaces "D") := by
  refine ⟨by decide, ?_⟩
  exact C1_transfer_conservation (Reaches.step Reaches.base (Step.emit repoED 100))
    "E" "D" 50 (by decide)

/-- C2: Atomicity on failure — for every ledger state, every repository
operation that returns an error leaves the entire ledger state exactly as it
was before the call. -/
theorem C2_atomic_on_failure (r : InMemoryAccountRepository) (amount : ℚ)
    (iban sender recipient : String) (req : Option MoneyTransferReq) (cands : List String) :
    (∀ e, (r.RetrieveEmissionAccountIban).1 = .error e →
        (r.RetrieveEmissionAccountIban).2 = r) ∧
    (∀ e, (r.RetrieveDestructionAccountIban).1 = .error e →
        (r.RetrieveDestructionAccountIban).2 = r) ∧
    (∀ e, (r.EmitMoney amount).1 = some e → (r.EmitMoney amount).2 = r) ∧
    (∀ e, (r.DestructMoney iban amount).1 = some e → (r.DestructMoney iban amount).2 = r) ∧
    (∀ e, (r.OpenAccount cands).1 = .error e → (r.OpenAccount cands).2 = r) ∧
    (∀ e, (r.TransferMoney sender recipient amount).1 = some e →
        (r.TransferMoney sender recipient amount).2 = r) ∧
    (∀ e, (r.TransferMoneyJson req).1 = some e → (r.TransferMoneyJson req).2 = r) ∧
    (∀ e, (r.RetrieveAllAccountsAsJson).1 = .error e →
        (r.RetrieveAllAccountsAsJson).2 = r) ∧
    (∀ e, (r.BlockAccount iban).1 = some e → (r.BlockAccount iban).2 = r) ∧
    (∀ e, (r.ActivateAccount iban).1 = some e → (r.ActivateAccount iban).2 = r) := by
  have opt : ∀ (p : Option ErrorCode × InMemoryAccountRepository),
      (p.1 = none ∨ p.2 = r) → ∀ e, p.1 = some e → p.2 = r := by
    intro p hp e he
    rcases hp with hp | hp
    · rw [he] at hp; cases hp
    · exact hp
  refine ⟨?_, ?_, opt _ (EmitMoney_err_or r amount),
    opt _ (DestructMoney_err_or r iban amount), ?_,
    opt _ (TransferMoney_err_or r sender recipient amount),
    opt _ (TransferMoneyJson_err_or r req), ?_,
    opt _ (BlockAccount_err_or r iban), opt _ (ActivateAccount_err_or r iban)⟩
  · intro e _
    exact RetrieveEmissionAccountIban_state r
  · intro e _
    exact RetrieveDestructionAccountIban_state r
  · intro e he
    rcases OpenAccount_err_or r cands with ⟨a, ha⟩ | hp
    · rw [he] at ha; cases ha
    · exact hp
  · intro e _
    exact RetrieveAllAccountsAsJson_state r

/-- C2 witness: `EmitMoney(-1)` on the fresh ledger fails with
`NegativeAmountError` and leaves the state unchanged. -/
theorem C2_atomic_on_failure_witness :
    (repoED.EmitMoney (-1)).1 = some .NegativeAmountError ∧
      (repoED.EmitMoney (-1)).2 = repoED := by
  refine ⟨by decide, ?_⟩
  exact (C2_atomic_on_failure repoED (-1) "E" "E" "D" none []).2.2.1
    ErrorCode.NegativeAmountError (by decide)

/-- C3 counterexample: the constructor accepts equal IBAN arguments;
`NewInMemoryAccountRepository("X","X")` is a reachable state (the empty
operation sequence) whose two distinct special accounts share the IBAN "X",
so the uniqueness claim is false as stated. -/
theorem C3_iban_uniqueness_cex :
    ¬ (NewInMemoryAccountRepository "X" "X").IbanUnique ∧
      (NewInMemoryAccountRepository "X" "X").EmissionAccount.Iban =
        (NewInMemoryAccountRepository "X" "X").DestructionAccount.Iban :=
  ⟨by decide, by decide⟩

/-- C3 (amended): in every state reachable from
`NewInMemoryAccountRepository(eIban, dIban)` with IBAN arguments that are
distinct after space-stripping, any two distinct accounts — including the
emission and destruction accounts — have distinct IBANs. -/
theorem C3_iban_uniqueness_amended {eIban dIban : String} {r : InMemoryAccountRepository}
    (hne : stripSpaces eIban ≠ stripSpaces dIban)
    (hreach : Reaches (NewInMemoryAccountRepository eIban dIban) r) :
    r.IbanUnique :=
  (Reaches_UOk hne hreach).2

/-- C3 witness: the fresh ledger with distinct IBANs "E" and "D" satisfies
IBAN uniqueness. -/
theorem C3_iban_uniqueness_witness :
    stripSpaces "E" ≠ stripSpaces "D" ∧
      (NewInMemoryAccountRepository "E" "D").IbanUnique :=
  ⟨by decide, C3_iban_uniqueness_amended (by decide) Reaches.base⟩

/-- C4: Non-negative balance invariant — in every reachable ledger state,
every account's `Balance` field is greater than or equal to zero. -/
theorem C4_balance_nonneg {eIban dIban : String} {r : InMemoryAccountRepository}
    (hreach : Reaches (NewInMemoryAccountRepository eIban dIban) r) :
    ∀ a ∈ r.accountsList, 0 ≤ a.Balance :=
  fun a ha => (Reaches_AllOk hreach a ha).2

/-- C4 witness: the emission account of the ledger reached by `EmitMoney(100)`
has a nonnegative balance. -/
theorem C4_balance_nonneg_witness : 0 ≤ repoED100.EmissionAccount.Balance :=
  C4_balance_nonneg (Reaches.step Reaches.base (Step.emit repoED 100)) _ (emission_mem _)

/-- C5 counterexample: the claim quantifies over all IBAN pairs "including a
equal to b"; with `a = b` the Go pointer aliasing makes the deduction and the
addition hit the same account, so a successful `TransferMoney("E","E",50)`
leaves the balance at 100 instead of decreasing it by 50. -/
theorem C5_sender_debit_cex :
    Reaches (NewInMemoryAccountRepository "E" "D") repoED100 ∧
    (repoED100.TransferMoney "E" "E" 50).1 = none ∧
    (repoED100.TransferMoney "E" "E" 50).2.balanceOf (stripSpaces "E") ≠
      repoED100.balanceOf (stripSpaces "E") - 50 :=
  ⟨Reaches.step Reaches.base (Step.emit repoED 100), by decide, by decide⟩

/-- C5 (amended): for every reachable ledger state and every successful
`TransferMoney(a, b, amt)` with `a` and `b` distinct after space-stripping,
the post-call balance of account `a` (with fractional remainder included)
equals its pre-call balance minus `amt` exactly. -/
theorem C5_sender_debit_amended {eIban dIban : String} {r : InMemoryAccountRepository}
    (hreach : Reaches (NewInMemoryAccountRepository eIban dIban) r)
    (sender recipient : String) (amount : ℚ)
    (hne : stripSpaces sender ≠ stripSpaces recipient)
    (hsucc : (r.TransferMoney sender recipient amount).1 = none) :
    (r.TransferMoney sender recipient amount).2.balanceOf (stripSpaces sender) =
      r.balanceOf (stripSpaces sender) - amount := by
  obtain ⟨sAcc, rAcc, hs, hsi, hss, hamt, hbal, ht, hti, hts, heq⟩ :=
    TransferMoney_success hsucc
  have hok := Reaches_AllOk hreach
  have hcs : IsCentM sAcc.Balance := (hok _ (mapFind_mem hs)).1
  rw [heq]
  have k1 : ((r.updateAt (stripSpaces sender) (fun a => a.Deduct amount))).mapFind
      (stripSpaces sender) = some (sAcc.Deduct amount) := by
    rw [mapFind_updateAt_self r _ _ (fun a => Deduct_Iban a amount), hs]
    rfl
  have k2 : (((r.updateAt (stripSpaces sender) (fun a => a.Deduct amount))).updateAt
      (stripSpaces recipient) (fun a => a.Add amount)).mapFind (stripSpaces sender) =
      some (sAcc.Deduct amount) := by
    rw [mapFind_updateAt_ne _ _ (fun a => Add_Iban a amount) hne, k1]
  rw [balanceOf_some k2, balanceOf_some hs, Deduct_Balance_of_centM hcs, Deduct_Fractions]
  ring

/-- C5 witness: after `EmitMoney(100)`, transferring 50 from "E" to "D"
debits the sender by exactly 50. -/
theorem C5_sender_debit_witness :
    (repoED100.TransferMoney "E" "D" 50).1 = none ∧
    (repoED100.TransferMoney "E" "D" 50).2.balanceOf (stripSpaces "E") =
      repoED100.balanceOf (stripSpaces "E") - 50 := by
  refine ⟨by decide, ?_⟩
  exact C5_sender_debit_amended (Reaches.step Reaches.base (Step.emit repoED 100))
    "E" "D" 50 (by decide) (by decide)

/-- C6 counterexample: the blocked-account check precedes the negative-amount
check, so on a reachable ledger whose emission account is Blocked,
`EmitMoney(-1)` fails with `AccountIsBlockedError`, not the claimed
`NegativeAmountError`. -/
theorem C6_negative_amount_cex :
    Reaches (NewInMemoryAccountRepository "E" "D") repoEDBlocked ∧
    ((-1 : ℚ) < 0) ∧
    (repoEDBlocked.EmitMoney (-1)).1 = some .AccountIsBlockedError ∧
    (repoEDBlocked.EmitMoney (-1)).1 ≠ some .NegativeAmountError :=
  ⟨Reaches.step Reaches.base (Step.block repoED "E"), by decide, by decide, by decide⟩

/-- C6 (amended): for every ledger state and negative amount, `EmitMoney`,
`DestructMoney` and `TransferMoney` each fail and leave the state unchanged;
the error kind is `NegativeAmountError` provided the checks that precede the
amount check pass (correct type and unblocked special account, respectively
an existing, key-consistent, unblocked sender). -/
theorem C6_negative_amount_amended (r : InMemoryAccountRepository)
    (iban sender recipient : String) (amount : ℚ) (hneg : amount < 0) :
    ((r.EmitMoney amount).1 ≠ none ∧ (r.EmitMoney amount).2 = r ∧
      (r.EmissionAccount.Typ = .MonetaryEmission → r.EmissionAccount.Status ≠ .Blocked →
        (r.EmitMoney amount).1 = some .NegativeAmountError)) ∧
    ((r.DestructMoney iban amount).1 ≠ none ∧ (r.DestructMoney iban amount).2 = r ∧
      (r.DestructionAccount.Typ = .MonetaryDestruction →
        r.DestructionAccount.Status ≠ .Blocked →
        (r.DestructMoney iban amount).1 = some .NegativeAmountError)) ∧
    ((r.TransferMoney sender recipient amount).1 ≠ none ∧
      (r.TransferMoney sender recipient amount).2 = r ∧
      (∀ sAcc, r.mapFind (stripSpaces sender) = some sAcc →
        sAcc.Iban = stripSpaces sender → sAcc.Status ≠ .Blocked →
        (r.TransferMoney sender recipient amount).1 = some .NegativeAmountError)) :=
  ⟨⟨(EmitMoney_neg hneg).1, (EmitMoney_neg hneg).2,
      fun ht hb => EmitMoney_neg_kind hneg ht hb⟩,
    ⟨(DestructMoney_neg hneg).1, (DestructMoney_neg hneg).2,
      fun ht hb => DestructMoney_neg_kind hneg ht hb⟩,
    ⟨(TransferMoney_neg hneg).1, (TransferMoney_neg hneg).2,
      fun _sAcc hs hi hb => TransferMoney_neg_kind hneg hs hi hb⟩⟩

/-- C6 witness: on the fresh ledger (all checks preceding the amount check
pass), `EmitMoney(-1)`, `DestructMoney("E",-1)` and
`TransferMoney("E","D",-1)` all fail with `NegativeAmountError`, and the
state is unchanged. -/
theorem C6_negative_amount_witness :
    (repoED.EmitMoney (-1)).1 = some .NegativeAmountError ∧
    (repoED.DestructMoney "E" (-1)).1 = some .NegativeAmountError ∧
    (repoED.TransferMoney "E" "D" (-1)).1 = some .NegativeAmountError ∧
    (repoED.EmitMoney (-1)).2 = repoED := by
  have h := C6_negative_amount_amended repoED "E" "E" "D" (-1) (by decide)
  exact ⟨h.1.2.2 (by decide) (by decide), h.2.1.2.2 (by decide) (by decide),
    h.2.2.2.2 repoED.EmissionAccount (by decide) (by decide) (by decide), h.1.2.1⟩

/-- C7 counterexample: with an existing-but-Blocked sender and an unknown
recipient, `TransferMoney` fails with `AccountIsBlockedError` (the sender
status check precedes the recipient existence check), not the claimed
`AccountDoesNotExistError`. -/
theorem C7_unknown_iban_cex :
    Reaches (NewInMemoryAccountRepository "E" "D") repoEDBlocked ∧
    repoEDBlocked.mapFind (stripSpaces "Z") = none ∧
    (repoEDBlocked.TransferMoney "E" "Z" 5).1 = some .AccountIsBlockedError ∧
    (repoEDBlocked.TransferMoney "E" "Z" 5).1 ≠ some .AccountDoesNotExistError :=
  ⟨Reaches.step Reaches.base (Step.block repoED "E"), by decide, by decide, by decide⟩

/-- C7 (amended): if either the space-stripped sender or recipient IBAN is
not in the ledger, `TransferMoney` always fails and leaves the state
unchanged; the error kind is `AccountDoesNotExistError` when the sender is
unknown, and also when the recipient is unknown provided every check that
precedes the recipient lookup passes. -/
theorem C7_unknown_iban_amended (r : InMemoryAccountRepository)
    (sender recipient : String) (amount : ℚ) :
    ((r.mapFind (stripSpaces sender) = none ∨
        r.mapFind (stripSpaces recipient) = none) →
      (r.TransferMoney sender recipient amount).1 ≠ none ∧
        (r.TransferMoney sender recipient amount).2 = r) ∧
    (r.mapFind (stripSpaces sender) = none →
      (r.TransferMoney sender recipient amount).1 = some .AccountDoesNotExistError) ∧
    (∀ sAcc, r.mapFind (stripSpaces sender) = some sAcc →
      sAcc.Iban = stripSpaces sender → sAcc.Status ≠ .Blocked → 0 ≤ amount →
      (roundAndExtractFractions amount).1 ≤ sAcc.Balance →
      r.mapFind (stripSpaces recipient) = none →
      (r.TransferMoney sender recipient amount).1 = some .AccountDoesNotExistError) := by
  refine ⟨fun h => TransferMoney_not_found h, fun h => ?_,
    fun sAcc hs hi hb hamt hbal ht => TransferMoney_recipient_none hs hi hb hamt hbal ht⟩
  rw [TransferMoney_sender_none recipient amount h]

/-- C7 witness: transferring from the unknown IBAN "Z" fails with
`AccountDoesNotExistError` and leaves the state unchanged. -/
theorem C7_unknown_iban_witness :
    repoED.mapFind (stripSpaces "Z") = none ∧
    (repoED.TransferMoney "Z" "E" 5).1 = some .AccountDoesNotExistError ∧
    (repoED.TransferMoney "Z" "E" 5).2 = repoED := by
  have h := C7_unknown_iban_amended repoED "Z" "E" 5
  have hz : repoED.mapFind (stripSpaces "Z") = none := by decide
  exact ⟨hz, h.2.1 hz, (h.1 (Or.inl hz)).2⟩

/-- C8: Validate characterization — `IsValidIban` is total, and returns
`true` iff, after removing spaces, the identifier has exactly 28 characters,
every character is in `[A-Z0-9]`, and the decimal value of its numeric form
(letters `A..Z` mapped to 10..35, digits unchanged) is congruent to 1
modulo 97. -/
theorem C8_validate_characterization (iban : String) :
    IsValidIban iban = true ↔ IbanSpecValid iban := by
  unfold IsValidIban IbanSpecValid
  by_cases hlen : (stripSpaces iban).data.length ≠ 28
  · rw [if_pos hlen]
    constructor
    · intro h
      simp at h
    · rintro ⟨h1, -, -⟩
      exact absurd h1 hlen
  · rw [if_neg hlen]
    push_neg at hlen
    cases hc : ConvertIbanToNumericForm (stripSpaces iban).data with
    | none =>
      constructor
      · intro h
        simp at h
      · rintro ⟨-, hgood, -⟩
        obtain ⟨ds, hds⟩ := convert_isSome hgood
        rw [hds] at hc
        cases hc
    | some ds =>
      dsimp only
      constructor
      · intro hmod
        rw [beq_iff_eq] at hmod
        refine ⟨hlen, convert_good hc, ?_⟩
        unfold numericValue
        rw [← convert_digitsVal hc 0, ← Mod97_eq_digitsVal, hmod]
      · rintro ⟨-, -, hmod⟩
        unfold numericValue at hmod
        rw [beq_iff_eq, Mod97_eq_digitsVal, convert_digitsVal hc 0]
        exact hmod

/-- C9 counterexample: the check digits are computed with the placeholder
digits in the middle of the numeric form, so the round-trip fails for most
random digit strings: the candidate generated from the all-zero BBAN is
rejected by `IsValidIban` (which is why the code retries in
`GenerateValidBelarusianIban`). -/
theorem C9_checksum_roundtrip_cex :
    GenerateBelarusianIban "000000000000000000000000" =
      some "BY58000000000000000000000000" ∧
    IsValidIban "BY58000000000000000000000000" = false :=
  ⟨by decide, by decide⟩

/-- C9 (amended): every identifier returned by the generate-and-validate
loop `GenerateValidBelarusianIban` — hence every identifier `OpenAccount`
assigns — is accepted by `IsValidIban`; it is the loop's validation, not the
check-digit computation alone, that guarantees the round-trip. -/
theorem C9_checksum_roundtrip_amended {fuel : ℕ} {cands : List String}
    {iban : String} {rest : List String}
    (h : GenerateValidBelarusianIban fuel cands = .ok (iban, rest)) :
    IsValidIban iban = true :=
  GenerateValidBelarusianIban_ok_valid h

/-- C9 witness: the BBAN `22 zeros ++ "58"` makes the placeholder numeric
form congruent to 1 mod 97; generation succeeds on the first attempt and the
result passes validation. -/
theorem C9_checksum_roundtrip_witness :
    (GenerateValidBelarusianIban 1000001 ["000000000000000000000058"]
      = .ok ("BY97000000000000000000000058", [])) ∧
    IsValidIban "BY97000000000000000000000058" = true :=
  ⟨by rfl, @C9_checksum_roundtrip_amended 1000001 ["000000000000000000000058"]
    "BY97000000000000000000000058" [] (by rfl)⟩

/-- C10: Whole-cent balance invariant — in every reachable ledger state,
every account's `Balance` field is an exact integer multiple of 0.01; all
sub-cent value lives only in the `Fractions` accumulator. -/
theorem C10_whole_cent_balances {eIban dIban : String} {r : InMemoryAccountRepository}
    (hreach : Reaches (NewInMemoryAccountRepository eIban dIban) r) :
    ∀ a ∈ r.accountsList, ∃ k : ℤ, a.Balance = (k : ℚ) / 100 :=
  fun a ha => (IsCentM_iff _).mp (Reaches_AllOk hreach a ha).1

/-- C10 witness: the emission account's balance after `EmitMoney(100)` is an
integer multiple of 0.01. -/
theorem C10_whole_cent_balances_witness :
    ∃ k : ℤ, repoED100.EmissionAccount.Balance = (k : ℚ) / 100 :=
  C10_whole_cent_balances (Reaches.step Reaches.base (Step.emit repoED 100)) _
    (emission_mem _)

end Bank
